import Mathlib

/-!
Verification of the asynchronous job orchestration subsystem of the
sam3-training web application (`webapp/job_manager.py`,
`webapp/training_executor.py`, `webapp/routes.py`, `webapp/models.py`).

The Python code is shallowly embedded:

* `JobStatus`, `Job`, `JobManager` and the `JobManager` methods
  (`create_job`, `update_job_status`, `append_log`, `get_logs`,
  `set_log_path`, `cancel_job`, `register_task`) are translated directly
  from `webapp/job_manager.py`.  Python `datetime.now()` is modelled by an
  explicit `now : Nat` argument; `uuid.uuid4()` by an explicit job-id
  argument; the `asyncio.Task` values stored in `running_tasks` are
  modelled by the list of job ids that have a registered task (the task
  object itself is only ever cancelled or deleted, never inspected).

* `TrainingExecutor.build_rf100vl_args`, `build_odinw_args` and the
  non-interleaved (cancellation-free) run of `execute_training` are
  translated from `webapp/training_executor.py` as pure functions over an
  explicit environment `ExecEnv` describing the filesystem and the
  external process (its output lines and exit status).

* The genuinely concurrent behaviour — the `execute_training` coroutine
  decomposed at its `await` points, the `/cancel` route running
  concurrently, and the websocket `stream_logs` subscriber — is modelled
  by a small-step transition relation `Step` over a system state `Sys`.
  `asyncio` is cooperative and single threaded, so every block of code
  between two `await` points is one atomic step, and steps of different
  tasks interleave only at those points.
-/

namespace Sam3

/-- `JobStatus` enumeration from `webapp/models.py`. -/
inductive JobStatus where
  | pending
  | running
  | completed
  | failed
  | cancelled
deriving DecidableEq, Repr

/-- The three terminal statuses, i.e. membership in the Python tuple
`(JobStatus.COMPLETED, JobStatus.FAILED, JobStatus.CANCELLED)`. -/
def JobStatus.isTerminal : JobStatus → Bool
  | .completed => true
  | .failed => true
  | .cancelled => true
  | _ => false

/-- A JSON-ish parameter value, as stored in the `parameters` dict of a job
(strings, ints, bools and `None`). -/
inductive ParamValue where
  | str (s : String)
  | int (n : Int)
  | bool (b : Bool)
  | nullV
deriving DecidableEq, Repr

/-- Python truthiness of a parameter value (`if params.get(k):`):
`None`, `""`, `0` and `False` are falsy. -/
def ParamValue.truthy : ParamValue → Bool
  | .str s => s ≠ ""
  | .int n => n ≠ 0
  | .bool b => b
  | .nullV => false

/-- Python `str(...)` of a parameter value, used when building argument
lists (only applied to ints in the source). -/
def ParamValue.toStr : ParamValue → String
  | .str s => s
  | .int n => toString n
  | .bool b => if b then "True" else "False"
  | .nullV => "None"

/-- One job record: the dict built by `JobManager.create_job`. -/
structure Job where
  job_id : String
  dataset_type : String
  status : JobStatus
  created_at : Nat
  started_at : Option Nat
  completed_at : Option Nat
  parameters : List (String × ParamValue)
  execution_mode : String
  exit_code : Option Int
  error_message : Option String
  log_path : Option String
  logs : List String
deriving DecidableEq, Repr

/-- Association-list lookup, modelling Python `dict.get` /
`dict.__getitem__` (`job_id in self.jobs` is `(alookup … ).isSome`). -/
def alookup {α : Type} : List (String × α) → String → Option α
  | [], _ => Option.none
  | (k', v) :: rest, k => if k' = k then some v else alookup rest k

/-- Association-list update, modelling Python `dict.__setitem__`
(replaces in place, appends if absent). -/
def aset {α : Type} : List (String × α) → String → α → List (String × α)
  | [], k, v => [(k, v)]
  | (k', v') :: rest, k, v =>
      if k' = k then (k, v) :: rest else (k', v') :: aset rest k v

/-- The `JobManager` state from `webapp/job_manager.py`: the `jobs` dict,
the set of job ids present in `running_tasks`, and the `log_files` dict.
`project_root` is carried separately where needed. -/
structure JobManager where
  jobs : List (String × Job)
  running_tasks : List String
  log_files : List (String × String)
deriving DecidableEq, Repr

/-- A `JobManager` as built by `JobManager.__init__`. -/
def JobManager.empty : JobManager :=
  { jobs := [], running_tasks := [], log_files := [] }

/-- `JobManager.create_job` (`job_manager.py:26-57`).  The fresh
`uuid.uuid4()` and `datetime.now()` are the explicit `job_id` / `now`
arguments. -/
def JobManager.create_job (m : JobManager) (job_id : String)
    (dataset_type : String) (parameters : List (String × ParamValue))
    (execution_mode : String) (now : Nat) : JobManager :=
  let job : Job :=
    { job_id := job_id
      dataset_type := dataset_type
      status := .pending
      created_at := now
      started_at := Option.none
      completed_at := Option.none
      parameters := parameters
      execution_mode := execution_mode
      exit_code := Option.none
      error_message := Option.none
      log_path := Option.none
      logs := [] }
  { m with jobs := aset m.jobs job_id job }

/-- `JobManager.get_job` (`job_manager.py:59-68`). -/
def JobManager.get_job (m : JobManager) (job_id : String) : Option Job :=
  alookup m.jobs job_id

/-- The mutation `update_job_status` applies to the job dict it found
(`job_manager.py:105-115`): set `status`, conditionally set `exit_code`
(only when not `None`) and `error_message` (only when truthy), then set
`started_at` on first entry to Running or refresh `completed_at` on any
entry to a terminal status. -/
def applyUpdate (job : Job) (status : JobStatus) (exit_code : Option Int)
    (error_message : Option String) (now : Nat) : Job :=
  let job := { job with status := status }
  let job := match exit_code with
             | some c => { job with exit_code := some c }
             | Option.none => job
  let job := match error_message with
             | some s => if s = "" then job else { job with error_message := some s }
             | Option.none => job
  if status = .running ∧ job.started_at = (Option.none : Option Nat) then
    { job with started_at := some now }
  else if status.isTerminal then
    { job with completed_at := some now }
  else job

/-- `JobManager.update_job_status` (`job_manager.py:84-117`).  Returns the
new manager and the Python return value. -/
def JobManager.update_job_status (m : JobManager) (job_id : String)
    (status : JobStatus) (exit_code : Option Int)
    (error_message : Option String) (now : Nat) : JobManager × Bool :=
  match alookup m.jobs job_id with
  | Option.none => (m, false)
  | some job =>
      let job := applyUpdate job status exit_code error_message now
      ({ m with jobs := aset m.jobs job_id job }, true)

/-- The log-buffer mutation of `append_log` (`job_manager.py:127-130`):
append a line, then keep only the last 10000 lines (`logs[-10000:]`) when
the length exceeds 10000. -/
def appendBounded (logs : List String) (log_line : String) : List String :=
  let logs := logs ++ [log_line]
  if logs.length > 10000 then logs.drop (logs.length - 10000) else logs

/-- `JobManager.append_log` (`job_manager.py:119-130`). -/
def JobManager.append_log (m : JobManager) (job_id : String)
    (log_line : String) : JobManager :=
  match alookup m.jobs job_id with
  | Option.none => m
  | some job =>
      let job := { job with logs := appendBounded job.logs log_line }
      { m with jobs := aset m.jobs job_id job }

/-- Python slice `l[i:]` for an `int` index `i` (negative indices count
from the end, clamped at 0). -/
def pySliceFrom (l : List String) (i : Int) : List String :=
  if 0 ≤ i then l.drop i.toNat else l.drop (l.length + i).toNat

/-- `JobManager.get_logs` (`job_manager.py:132-147`).  Note the source
tests `if tail:` — Python truthiness — so both `None` and `0` return the
whole buffer, and otherwise the result is `logs[-tail:]`. -/
def JobManager.get_logs (m : JobManager) (job_id : String)
    (tail : Option Int) : List String :=
  match alookup m.jobs job_id with
  | Option.none => []
  | some job =>
      match tail with
      | some t => if t = 0 then job.logs else pySliceFrom job.logs (-t)
      | Option.none => job.logs

/-- `JobManager.set_log_path` (`job_manager.py:149-158`). -/
def JobManager.set_log_path (m : JobManager) (job_id : String)
    (log_path : String) : JobManager :=
  match alookup m.jobs job_id with
  | Option.none => m
  | some job =>
      let job := { job with log_path := some log_path }
      { m with
        jobs := aset m.jobs job_id job
        log_files := aset m.log_files job_id log_path }

/-- `JobManager.register_task` (`job_manager.py:210-217`); only the key
set of `running_tasks` is modelled. -/
def JobManager.register_task (m : JobManager) (job_id : String) : JobManager :=
  if m.running_tasks.contains job_id then m
  else { m with running_tasks := m.running_tasks ++ [job_id] }

/-- `JobManager.cancel_job` (`job_manager.py:160-183`): fails when the
job is unknown or not Running; otherwise cancels and removes any
registered task and applies `update_job_status(job_id, CANCELLED)` —
note: with no exit code.  The effect of `task.cancel()` on the executor
coroutine is modelled in the transition system below. -/
def JobManager.cancel_job (m : JobManager) (job_id : String) (now : Nat) :
    JobManager × Bool :=
  match alookup m.jobs job_id with
  | Option.none => (m, false)
  | some job =>
      if job.status ≠ .running then (m, false)
      else
        -- `if job_id in self.running_tasks: task.cancel(); del …`
        let running_tasks := if m.running_tasks.contains job_id then
                               m.running_tasks.filter (· ≠ job_id)
                             else m.running_tasks
        let m := { m with running_tasks := running_tasks }
        ((m.update_job_status job_id .cancelled Option.none Option.none now).1, true)

/-- Python `params.get(k)` on the parameters dict: missing keys give
`None`. -/
def pget (params : List (String × ParamValue)) (k : String) : ParamValue :=
  (alookup params k).getD .nullV

/-- Append `["--flag", str-value]` when the parameter is truthy
(`if params.get(k): args.extend([flag, params[k]])`). -/
def argOpt (params : List (String × ParamValue)) (k flag : String)
    (args : List String) : List String :=
  if (pget params k).truthy then args ++ [flag, (pget params k).toStr] else args

/-- Append a presence-only `--flag` when the parameter is truthy
(`if params.get(k, False): args.append(flag)`). -/
def argFlag (params : List (String × ParamValue)) (k flag : String)
    (args : List String) : List String :=
  if (pget params k).truthy then args ++ [flag] else args

/-- `TrainingExecutor.build_rf100vl_args` (`training_executor.py:26-85`). -/
def build_rf100vl_args (params : List (String × ParamValue)) : List String :=
  let args : List String := []
  let args := argOpt params "supercategory" "--supercategory" args
  let args := argOpt params "mode" "--mode" args
  let args := argOpt params "num_gpus" "--num-gpus" args
  let args := argOpt params "num_nodes" "--num-nodes" args
  let args := argOpt params "partition" "--partition" args
  let args := argOpt params "account" "--account" args
  let args := argOpt params "qos" "--qos" args
  let args := argOpt params "roboflow_root" "--roboflow-root" args
  let args := argOpt params "experiment_dir" "--experiment-dir" args
  let args := argOpt params "bpe_path" "--bpe-path" args
  let args := argOpt params "base_config" "--base-config" args
  let args := argFlag params "skip_config_resolution" "--skip-config-resolution" args
  let args := argFlag params "skip_config_validation" "--skip-config-validation" args
  let args := argFlag params "skip_env_setup" "--skip-env-setup" args
  let args := argFlag params "skip_data_validation" "--skip-data-validation" args
  let args := argFlag params "dry_run" "--dry-run" args
  args

/-- `TrainingExecutor.build_odinw_args` (`training_executor.py:87-146`). -/
def build_odinw_args (params : List (String × ParamValue)) : List String :=
  let args : List String := []
  let args := argOpt params "config_type" "--config-type" args
  let args := argOpt params "mode" "--mode" args
  let args := argOpt params "num_gpus" "--num-gpus" args
  let args := argOpt params "num_nodes" "--num-nodes" args
  let args := argOpt params "partition" "--partition" args
  let args := argOpt params "account" "--account" args
  let args := argOpt params "qos" "--qos" args
  let args := argOpt params "odinw_root" "--odinw-root" args
  let args := argOpt params "experiment_dir" "--experiment-dir" args
  let args := argOpt params "bpe_path" "--bpe-path" args
  let args := argOpt params "base_config" "--base-config" args
  let args := argFlag params "skip_config_resolution" "--skip-config-resolution" args
  let args := argFlag params "skip_config_validation" "--skip-config-validation" args
  let args := argFlag params "skip_env_setup" "--skip-env-setup" args
  let args := argFlag params "skip_data_validation" "--skip-data-validation" args
  let args := argFlag params "dry_run" "--dry-run" args
  args

/-- Environment of one `execute_training` run: the filesystem predicate
used by `script_path.exists()`, the subprocess spawn outcome, and the
external process behaviour (decoded, rstripped output lines and the exit
status returned by `process.wait()`). -/
structure ExecEnv where
  script_exists : String → Bool
  spawn_ok : Bool
  spawn_error : String
  output_lines : List String
  exit_status : Int

/-- The line of 80 `=` characters (`"=" * 80`). -/
def eqLine80 : String := String.mk (List.replicate 80 (Char.ofNat 61))

/-- The training script path for a dataset type
(`training_executor.py:164-172`); `none` for the `ValueError` case.
Paths are joined with `/` as `pathlib` does. -/
def scriptPathOf (project_root dataset_type : String) : Option String :=
  if dataset_type = "rf100vl" then
    some (project_root ++ "/scripts/train_rf100vl.sh")
  else if dataset_type = "odinw" then
    some (project_root ++ "/scripts/train_odinw.sh")
  else Option.none

/-- Argument list for a dataset type (empty in the `ValueError` case,
which never reaches the argument builder). -/
def argsOf (dataset_type : String) (params : List (String × ParamValue)) :
    List String :=
  if dataset_type = "rf100vl" then build_rf100vl_args params
  else if dataset_type = "odinw" then build_odinw_args params
  else []

/-- The log file path created by `execute_training`
(`training_executor.py:188-195`); the strftime timestamp is modelled by
`now`. -/
def logFilePath (project_root dataset_type job_id : String) (now : Nat) :
    String :=
  project_root ++ "/experiments/logs/training_" ++ dataset_type ++ "_" ++
    (String.mk (job_id.toList.take 8)) ++ "_" ++ toString now ++ ".log"

/-- Result of an `execute_training` run: the final job store, the Python
outcome (`.error msg` for a raised `ValueError`, `.ok code` for a normal
return), and the list of subprocess commands actually spawned. -/
structure ExecResult where
  manager : JobManager
  outcome : Except String Int
  spawned : List (List String)
deriving Repr

/-- `TrainingExecutor.execute_training` (`training_executor.py:148-244`)
as a straight-line run with no concurrent cancellation (the interleaved /
cancelled runs are modelled by the `Step` relation below).  The persisted
log file contents are not modelled; `log_file` itself is (via
`set_log_path`). -/
def execute_training (env : ExecEnv) (project_root : String)
    (m : JobManager) (job_id dataset_type : String)
    (params : List (String × ParamValue)) (now : Nat) : ExecResult :=
  match scriptPathOf project_root dataset_type with
  | Option.none =>
      { manager := m
        outcome := .error ("Unknown dataset type: " ++ dataset_type)
        spawned := [] }
  | some script_path =>
      let args := argsOf dataset_type params
      if env.script_exists script_path = false then
        let error_msg := "Training script not found: " ++ script_path
        let m := m.append_log job_id ("ERROR: " ++ error_msg)
        let m := (m.update_job_status job_id .failed (some 1) (some error_msg) now).1
        { manager := m, outcome := .ok 1, spawned := [] }
      else
        let cmd := ["bash", script_path] ++ args
        let m := (m.update_job_status job_id .running Option.none Option.none now).1
        let m := m.append_log job_id ("Executing: " ++ String.intercalate " " cmd)
        let m := m.append_log job_id eqLine80
        let m := m.set_log_path job_id (logFilePath project_root dataset_type job_id now)
        if env.spawn_ok = false then
          -- `except Exception` branch: `create_subprocess_exec` raised.
          let error_msg := "Execution error: " ++ env.spawn_error
          let m := m.append_log job_id ("ERROR: " ++ error_msg)
          let m := (m.update_job_status job_id .failed (some 1) (some error_msg) now).1
          { manager := m, outcome := .ok 1, spawned := [] }
        else
          let m := env.output_lines.foldl (fun m line => m.append_log job_id line) m
          let exit_code := env.exit_status
          if exit_code = 0 then
            let m := (m.update_job_status job_id .completed (some 0) Option.none now).1
            let m := m.append_log job_id eqLine80
            let m := m.append_log job_id "Training completed successfully"
            { manager := m, outcome := .ok 0, spawned := [cmd] }
          else
            let error_msg := "Training failed with exit code " ++ toString exit_code
            let m := (m.update_job_status job_id .failed (some exit_code) (some error_msg) now).1
            let m := m.append_log job_id eqLine80
            let m := m.append_log job_id ("ERROR: " ++ error_msg)
            { manager := m, outcome := .ok exit_code, spawned := [cmd] }

/-- `TrainingMode` enumeration from `webapp/models.py`. -/
inductive TrainingMode where
  | LOCAL
  | CLUSTER
deriving DecidableEq, Repr

/-- The `str` value of a `TrainingMode` member. -/
def TrainingMode.value : TrainingMode → String
  | .LOCAL => "local"
  | .CLUSTER => "cluster"

/-- `ExecutionMode` enumeration from `webapp/models.py`. -/
inductive ExecutionMode where
  | SYNC
  | ASYNC
deriving DecidableEq, Repr

/-- The `str` value of an `ExecutionMode` member. -/
def ExecutionMode.value : ExecutionMode → String
  | .SYNC => "sync"
  | .ASYNC => "async"

/-- `RF100VLTrainingRequest` from `webapp/models.py` (pydantic model). -/
structure RF100VLTrainingRequest where
  supercategory : String := "all"
  mode : TrainingMode := .LOCAL
  num_gpus : Option Int := Option.none
  num_nodes : Option Int := Option.none
  partition : Option String := Option.none
  account : Option String := Option.none
  qos : Option String := Option.none
  roboflow_root : Option String := Option.none
  experiment_dir : Option String := Option.none
  bpe_path : Option String := Option.none
  base_config : Option String := Option.none
  skip_config_resolution : Bool := false
  skip_config_validation : Bool := false
  skip_env_setup : Bool := false
  skip_data_validation : Bool := false
  dry_run : Bool := false
  execution_mode : ExecutionMode := .ASYNC
deriving DecidableEq, Repr

/-- An optional string as a parameter value. -/
def optStr : Option String → ParamValue
  | some s => .str s
  | Option.none => .nullV

/-- An optional int as a parameter value. -/
def optInt : Option Int → ParamValue
  | some n => .int n
  | Option.none => .nullV

/-- The `params` dict built by `submit_rf100vl_job` (`routes.py:44-49`):
`request.model_dump(exclude={"execution_mode"})` with the `mode` enum
replaced by its string value. -/
def RF100VLTrainingRequest.routeParams (r : RF100VLTrainingRequest) :
    List (String × ParamValue) :=
  [("supercategory", .str r.supercategory),
   ("mode", .str r.mode.value),
   ("num_gpus", optInt r.num_gpus),
   ("num_nodes", optInt r.num_nodes),
   ("partition", optStr r.partition),
   ("account", optStr r.account),
   ("qos", optStr r.qos),
   ("roboflow_root", optStr r.roboflow_root),
   ("experiment_dir", optStr r.experiment_dir),
   ("bpe_path", optStr r.bpe_path),
   ("base_config", optStr r.base_config),
   ("skip_config_resolution", .bool r.skip_config_resolution),
   ("skip_config_validation", .bool r.skip_config_validation),
   ("skip_env_setup", .bool r.skip_env_setup),
   ("skip_data_validation", .bool r.skip_data_validation),
   ("dry_run", .bool r.dry_run)]

/-- `submit_rf100vl_job` (`routes.py:34-65`).  In async mode the task is
created and registered and the handler builds the response before the
spawned coroutine first runs (there is no `await` in between); in sync
mode `execute_training` is awaited to completion first.  The returned
snapshot is `get_job(job_id)` (wrapped by `JobResponse(**job)` in the
source, a field-for-field copy). -/
def submit_rf100vl_job (env : ExecEnv) (project_root : String)
    (m : JobManager) (req : RF100VLTrainingRequest) (new_id : String)
    (now : Nat) : JobManager × Option Job :=
  let params := req.routeParams
  let m := m.create_job new_id "rf100vl" params req.execution_mode.value now
  if req.execution_mode = .ASYNC then
    let m := m.register_task new_id
    (m, m.get_job new_id)
  else
    let r := execute_training env project_root m new_id "rf100vl" params now
    (r.manager, r.manager.get_job new_id)

/-!
## Interleaved semantics

One submitted job, the `execute_training` coroutine that runs it, the
`/cancel` route, and one websocket `stream_logs` subscriber.  `asyncio`
is cooperative: each block of code between `await` points is one atomic
step, and the tasks interleave only at those points.
-/

/-- Program counter of the `execute_training` coroutine, one value per
region between `await` points: before its first run; suspended on
`await create_subprocess_exec`; streaming with the given lines still to
be produced (suspended on `readline` / `wait`); and returned. -/
inductive ExecPC where
  | notStarted
  | spawning
  | launched (remaining : List String)
  | finished
deriving DecidableEq, Repr

/-- A message sent to a websocket subscriber by `stream_logs`: one log
line (`send_text`) or the final status JSON (`send_json`). -/
inductive StreamMsg where
  | line (s : String)
  | statusEv (status : JobStatus) (exit_code : Option Int)
deriving DecidableEq, Repr

/-- Program counter of one `stream_logs` subscriber (`routes.py:157-211`):
replaying `existing_logs` (a live list, iterated by index) at index `i`;
parked on `asyncio.sleep` at the top of the polling loop; sending the
slice `current_logs[last_log_count:]` with the given lines still to send;
or closed. -/
inductive SubPhase where
  | replay (i : Nat)
  | loopStart
  | sendNew (pending : List String)
  | closed
deriving DecidableEq, Repr

/-- Phases in which `stream_logs` holds no stale unsent snapshot: a log
line appended now is still delivered by a later read.  During `sendNew`
the subscriber is sending a slice copied earlier, and afterwards sets
`last_log_count = len(current_logs)` from the live list, so lines
appended during the sends are skipped. -/
def SubPhase.safeForAppend : SubPhase → Bool
  | .sendNew _ => false
  | _ => true

/-- Static context of one submitted job run. -/
structure RunCtx where
  project_root : String
  job_id : String
  dataset_type : String
  params : List (String × ParamValue)
  execution_mode : ExecutionMode
  env : ExecEnv

/-- Dynamic state: the job store plus the executor task, whether
`task.cancel()` has been called on it, and the subscriber. -/
structure Sys where
  m : JobManager
  pc : ExecPC
  taskCancelled : Bool
  sub : SubPhase
  lastCount : Nat
  sent : List StreamMsg
deriving DecidableEq, Repr

/-- The tracked job's record. -/
def jobOf (ctx : RunCtx) (s : Sys) : Option Job := s.m.get_job ctx.job_id

/-- The tracked job's status (defaulting to Pending for a missing record;
the record always exists in reachable states). -/
def statusOf (ctx : RunCtx) (s : Sys) : JobStatus :=
  match jobOf ctx s with
  | some j => j.status
  | Option.none => .pending

/-- The tracked job's live log list, as `get_logs(job_id)` returns it. -/
def logsOf (ctx : RunCtx) (s : Sys) : List String :=
  s.m.get_logs ctx.job_id Option.none

/-- The tracked job's exit code (`job.get("exit_code")`). -/
def exitOf (ctx : RunCtx) (s : Sys) : Option Int :=
  (jobOf ctx s).bind Job.exit_code

/-- `execute_training` lines 174-178: missing script — log the error,
mark the job Failed with exit code 1, return 1. -/
def launchMissingNext (ctx : RunCtx) (p : String) (now : Nat) (s : Sys) : Sys :=
  let msg := "Training script not found: " ++ p
  let m := s.m.append_log ctx.job_id ("ERROR: " ++ msg)
  let m := (m.update_job_status ctx.job_id .failed (some 1) (some msg) now).1
  { s with m := m, pc := .finished }

/-- `execute_training` lines 180-199 up to the spawn `await`: mark the
job Running, log the command line and separator, create the log file. -/
def launchPrepNext (ctx : RunCtx) (p : String) (now : Nat) (s : Sys) : Sys :=
  let cmd := ["bash", p] ++ argsOf ctx.dataset_type ctx.params
  let m := (s.m.update_job_status ctx.job_id .running Option.none Option.none now).1
  let m := m.append_log ctx.job_id ("Executing: " ++ String.intercalate " " cmd)
  let m := m.append_log ctx.job_id eqLine80
  let m := m.set_log_path ctx.job_id
             (logFilePath ctx.project_root ctx.dataset_type ctx.job_id now)
  { s with m := m, pc := .spawning }

/-- `execute_training` lines 220-233: the process exited; mark the job
Completed or Failed and log the trailer. -/
def procExitNext (ctx : RunCtx) (now : Nat) (s : Sys) : Sys :=
  let exit_code := ctx.env.exit_status
  if exit_code = 0 then
    let m := (s.m.update_job_status ctx.job_id .completed (some 0) Option.none now).1
    let m := m.append_log ctx.job_id eqLine80
    let m := m.append_log ctx.job_id "Training completed successfully"
    { s with m := m, pc := .finished }
  else
    let msg := "Training failed with exit code " ++ toString exit_code
    let m := (s.m.update_job_status ctx.job_id .failed (some exit_code) (some msg) now).1
    let m := m.append_log ctx.job_id eqLine80
    let m := m.append_log ctx.job_id ("ERROR: " ++ msg)
    { s with m := m, pc := .finished }

/-- `execute_training` lines 240-244, the `except Exception` branch
(spawn error or I/O fault while pumping output). -/
def execExceptNext (ctx : RunCtx) (emsg : String) (now : Nat) (s : Sys) : Sys :=
  let msg := "Execution error: " ++ emsg
  let m := s.m.append_log ctx.job_id ("ERROR: " ++ msg)
  let m := (m.update_job_status ctx.job_id .failed (some 1) (some msg) now).1
  { s with m := m, pc := .finished }

/-- `execute_training` lines 235-239, the `except asyncio.CancelledError`
branch: log the cancellation, mark the job Cancelled with the -1
sentinel, re-raise. -/
def cancelHandlerNext (ctx : RunCtx) (now : Nat) (s : Sys) : Sys :=
  let m := s.m.append_log ctx.job_id eqLine80
  let m := m.append_log ctx.job_id "Training cancelled by user"
  let m := (m.update_job_status ctx.job_id .cancelled (some (-1)) Option.none now).1
  { s with m := m, pc := .finished }

/-- The `/cancel` route: `cancel_job` runs atomically (it has no
`await`); `task.cancel()` schedules a `CancelledError` into the executor
exactly when a task was registered for the job, which is recorded in
`taskCancelled`. -/
def apiCancelNext (ctx : RunCtx) (now : Nat) (s : Sys) : Sys :=
  let r := s.m.cancel_job ctx.job_id now
  { s with
    m := r.1
    taskCancelled :=
      s.taskCancelled || (r.2 && s.m.running_tasks.contains ctx.job_id) }

/-- The spawn `await` returned: the executor enters the streaming loop
with the whole process output still to read. -/
def spawnOkNext (ctx : RunCtx) (s : Sys) : Sys :=
  { s with pc := .launched ctx.env.output_lines }

/-- `readline` returned one line: `append_log` it (plus the file write,
not modelled) and suspend on the next `readline`. -/
def emitLineNext (ctx : RunCtx) (x : String) (r : List String) (s : Sys) : Sys :=
  { s with m := s.m.append_log ctx.job_id x, pc := .launched r }

/-- `stream_logs`: one `send_text` of `existing_logs[i]` during the
pre-loop replay (the list is live, iterated by index). -/
def subReplaySendNext (ctx : RunCtx) (i : Nat) (s : Sys) : Sys :=
  { s with sub := .replay (i+1),
           sent := s.sent ++ [.line ((logsOf ctx s).getD i "")] }

/-- `stream_logs`: the replay iterator is exhausted;
`last_log_count = len(existing_logs)` (live length) and the polling loop
is entered. -/
def subReplayDoneNext (ctx : RunCtx) (s : Sys) : Sys :=
  { s with sub := .loopStart, lastCount := (logsOf ctx s).length }

/-- `stream_logs`: woke from `sleep`, found new lines, and copied the
slice `current_logs[last_log_count:]` to send. -/
def subIterSnapNext (ctx : RunCtx) (s : Sys) : Sys :=
  { s with sub := .sendNew ((logsOf ctx s).drop s.lastCount) }

/-- `stream_logs`: woke from `sleep`, no new lines, live status is
terminal: send the final status JSON and break.  `last_log_count` is not
updated on this path (the update sits inside the new-lines branch). -/
def subIterCloseNext (ctx : RunCtx) (s : Sys) : Sys :=
  { s with sub := .closed,
           sent := s.sent ++ [.statusEv (statusOf ctx s) (exitOf ctx s)] }

/-- `stream_logs`: one `send_text` from the copied slice. -/
def subSendNext (x : String) (p : List String) (s : Sys) : Sys :=
  { s with sub := .sendNew p, sent := s.sent ++ [.line x] }

/-- `stream_logs`: the slice is sent; `last_log_count = len(current_logs)`
(live length, possibly counting lines never sent), live status not
terminal, loop again. -/
def subFlushLoopNext (ctx : RunCtx) (s : Sys) : Sys :=
  { s with sub := .loopStart, lastCount := (logsOf ctx s).length }

/-- `stream_logs`: the slice is sent; `last_log_count` updated from the
live list, live status terminal: send the final status JSON and break. -/
def subFlushCloseNext (ctx : RunCtx) (s : Sys) : Sys :=
  { s with sub := .closed,
           lastCount := (logsOf ctx s).length,
           sent := s.sent ++ [.statusEv (statusOf ctx s) (exitOf ctx s)] }

/-- One interleaving step.  With `strict = false` every realizable
interleaving is allowed; with `strict = true` the executor may append log
lines only while the subscriber holds no stale snapshot
(`SubPhase.safeForAppend`), the schedule discipline under which the
amended broadcaster property holds. -/
inductive Step (ctx : RunCtx) (strict : Bool) : Sys → Sys → Prop where
  | launchMissing (s : Sys) (p : String) (now : Nat) :
      s.pc = .notStarted →
      scriptPathOf ctx.project_root ctx.dataset_type = some p →
      ctx.env.script_exists p = false →
      (strict = true → s.sub.safeForAppend = true) →
      Step ctx strict s (launchMissingNext ctx p now s)
  | launchPrep (s : Sys) (p : String) (now : Nat) :
      s.pc = .notStarted →
      scriptPathOf ctx.project_root ctx.dataset_type = some p →
      ctx.env.script_exists p = true →
      (strict = true → s.sub.safeForAppend = true) →
      Step ctx strict s (launchPrepNext ctx p now s)
  | spawnOk (s : Sys) :
      s.pc = .spawning → s.taskCancelled = false → ctx.env.spawn_ok = true →
      Step ctx strict s (spawnOkNext ctx s)
  | emitLine (s : Sys) (x : String) (r : List String) :
      s.pc = .launched (x :: r) → s.taskCancelled = false →
      (strict = true → s.sub.safeForAppend = true) →
      Step ctx strict s (emitLineNext ctx x r s)
  | procExit (s : Sys) (now : Nat) :
      s.pc = .launched [] → s.taskCancelled = false →
      (strict = true → s.sub.safeForAppend = true) →
      Step ctx strict s (procExitNext ctx now s)
  | execExcept (s : Sys) (emsg : String) (now : Nat) :
      (s.pc = .spawning ∨ ∃ r, s.pc = .launched r) → s.taskCancelled = false →
      (strict = true → s.sub.safeForAppend = true) →
      Step ctx strict s (execExceptNext ctx emsg now s)
  | cancelHandler (s : Sys) (now : Nat) :
      (s.pc = .spawning ∨ ∃ r, s.pc = .launched r) → s.taskCancelled = true →
      (strict = true → s.sub.safeForAppend = true) →
      Step ctx strict s (cancelHandlerNext ctx now s)
  | apiCancel (s : Sys) (now : Nat) :
      Step ctx strict s (apiCancelNext ctx now s)
  | subReplayNext (s : Sys) (i : Nat) :
      s.sub = .replay i → i < (logsOf ctx s).length →
      Step ctx strict s (subReplaySendNext ctx i s)
  | subReplayDone (s : Sys) (i : Nat) :
      s.sub = .replay i → ¬ i < (logsOf ctx s).length →
      Step ctx strict s (subReplayDoneNext ctx s)
  | subIterSnap (s : Sys) :
      s.sub = .loopStart → (logsOf ctx s).length > s.lastCount →
      Step ctx strict s (subIterSnapNext ctx s)
  | subIterSkip (s : Sys) :
      s.sub = .loopStart → ¬ (logsOf ctx s).length > s.lastCount →
      (statusOf ctx s).isTerminal = false →
      Step ctx strict s s
  | subIterClose (s : Sys) :
      s.sub = .loopStart → ¬ (logsOf ctx s).length > s.lastCount →
      (statusOf ctx s).isTerminal = true →
      Step ctx strict s (subIterCloseNext ctx s)
  | subSend (s : Sys) (x : String) (p : List String) :
      s.sub = .sendNew (x :: p) →
      Step ctx strict s (subSendNext x p s)
  | subFlushLoop (s : Sys) :
      s.sub = .sendNew [] → (statusOf ctx s).isTerminal = false →
      Step ctx strict s (subFlushLoopNext ctx s)
  | subFlushClose (s : Sys) :
      s.sub = .sendNew [] → (statusOf ctx s).isTerminal = true →
      Step ctx strict s (subFlushCloseNext ctx s)

/-- State right after a submission request returned: the job record
created (timestamps start at 0), the task registered exactly in async
mode, the executor not yet run, and the subscriber attached from the
start with everything still to replay. -/
def initSys (ctx : RunCtx) : Sys :=
  let m := JobManager.empty.create_job ctx.job_id ctx.dataset_type ctx.params
             ctx.execution_mode.value 0
  let m := if ctx.execution_mode = .ASYNC then m.register_task ctx.job_id else m
  { m := m, pc := .notStarted, taskCancelled := false,
    sub := .replay 0, lastCount := 0, sent := [] }

/-- Reachability from the submission state. -/
def Reach (ctx : RunCtx) (strict : Bool) (s : Sys) : Prop :=
  Relation.ReflTransGen (Step ctx strict) (initSys ctx) s

/-!
## Basic lemmas about the store operations
-/

theorem alookup_aset_self {α : Type} (l : List (String × α)) (k : String)
    (v : α) : alookup (aset l k v) k = some v := by
  induction l with
  | nil => simp [aset, alookup]
  | cons hd t ih =>
      obtain ⟨k', v'⟩ := hd
      by_cases hk : k' = k <;> simp [aset, alookup, hk, ih]

theorem get_job_create (m : JobManager) (id dt : String)
    (ps : List (String × ParamValue)) (em : String) (now : Nat) :
    (m.create_job id dt ps em now).get_job id = some
      { job_id := id, dataset_type := dt, status := .pending,
        created_at := now, started_at := Option.none,
        completed_at := Option.none, parameters := ps,
        execution_mode := em, exit_code := Option.none,
        error_message := Option.none, log_path := Option.none,
        logs := [] } := by
  simp [JobManager.create_job, JobManager.get_job, alookup_aset_self]

theorem get_job_update {m : JobManager} {id : String} {j : Job}
    (h : m.get_job id = some j) (st : JobStatus) (ec : Option Int)
    (em : Option String) (now : Nat) :
    (m.update_job_status id st ec em now).1.get_job id =
      some (applyUpdate j st ec em now) := by
  unfold JobManager.get_job at h
  unfold JobManager.update_job_status
  rw [h]
  simp [JobManager.get_job, alookup_aset_self]

theorem update_running_tasks (m : JobManager) (id : String) (st : JobStatus)
    (ec : Option Int) (em : Option String) (now : Nat) :
    (m.update_job_status id st ec em now).1.running_tasks = m.running_tasks := by
  unfold JobManager.update_job_status
  cases alookup m.jobs id <;> simp

theorem get_job_append {m : JobManager} {id : String} {j : Job}
    (h : m.get_job id = some j) (x : String) :
    (m.append_log id x).get_job id = some { j with logs := appendBounded j.logs x } := by
  unfold JobManager.get_job at h
  unfold JobManager.append_log
  rw [h]
  simp [JobManager.get_job, alookup_aset_self]

theorem append_log_running_tasks (m : JobManager) (id x : String) :
    (m.append_log id x).running_tasks = m.running_tasks := by
  unfold JobManager.append_log
  cases alookup m.jobs id <;> simp

theorem get_job_set_log_path {m : JobManager} {id : String} {j : Job}
    (h : m.get_job id = some j) (p : String) :
    (m.set_log_path id p).get_job id = some { j with log_path := some p } := by
  unfold JobManager.get_job at h
  unfold JobManager.set_log_path
  rw [h]
  simp [JobManager.get_job, alookup_aset_self]

theorem set_log_path_running_tasks (m : JobManager) (id p : String) :
    (m.set_log_path id p).running_tasks = m.running_tasks := by
  unfold JobManager.set_log_path
  cases alookup m.jobs id <;> simp

theorem get_job_register (m : JobManager) (id id' : String) :
    (m.register_task id').get_job id = m.get_job id := by
  unfold JobManager.register_task JobManager.get_job
  split <;> rfl

/-- If the line fits, `appendBounded` is a plain append. -/
theorem appendBounded_noevict {logs : List String} (h : logs.length < 10000)
    (x : String) : appendBounded logs x = logs ++ [x] := by
  simp only [appendBounded]
  have hlen : ¬ (logs ++ [x]).length > 10000 := by simp; omega
  rw [if_neg hlen]

/-- `applyUpdate` sets exactly the requested status. -/
theorem applyUpdate_status (j : Job) (st : JobStatus) (ec : Option Int)
    (em : Option String) (now : Nat) :
    (applyUpdate j st ec em now).status = st := by
  unfold applyUpdate
  cases ec <;> cases em <;> dsimp <;> split_ifs <;> rfl

theorem applyUpdate_logs (j : Job) (st : JobStatus) (ec : Option Int)
    (em : Option String) (now : Nat) :
    (applyUpdate j st ec em now).logs = j.logs := by
  unfold applyUpdate
  cases ec <;> cases em <;> dsimp <;> split_ifs <;> rfl

theorem applyUpdate_parameters (j : Job) (st : JobStatus) (ec : Option Int)
    (em : Option String) (now : Nat) :
    (applyUpdate j st ec em now).parameters = j.parameters := by
  unfold applyUpdate
  cases ec <;> cases em <;> dsimp <;> split_ifs <;> rfl

theorem applyUpdate_exit_code_some (j : Job) (st : JobStatus) (c : Int)
    (em : Option String) (now : Nat) :
    (applyUpdate j st (some c) em now).exit_code = some c := by
  unfold applyUpdate
  cases em <;> dsimp <;> split_ifs <;> rfl

theorem applyUpdate_exit_code_none (j : Job) (st : JobStatus)
    (em : Option String) (now : Nat) :
    (applyUpdate j st Option.none em now).exit_code = j.exit_code := by
  unfold applyUpdate
  cases em <;> dsimp <;> split_ifs <;> rfl

theorem applyUpdate_completed_at_terminal (j : Job) (st : JobStatus)
    (hst : st.isTerminal = true) (ec : Option Int) (em : Option String)
    (now : Nat) : (applyUpdate j st ec em now).completed_at = some now := by
  have hr : st ≠ .running := by cases st <;> simp_all [JobStatus.isTerminal]
  unfold applyUpdate
  cases ec <;> cases em <;> simp [hr, hst]

theorem applyUpdate_completed_at_nonterminal (j : Job) (st : JobStatus)
    (hst : st.isTerminal = false) (ec : Option Int) (em : Option String)
    (now : Nat) : (applyUpdate j st ec em now).completed_at = j.completed_at := by
  unfold applyUpdate
  cases ec <;> cases em <;> simp [hst] <;> split_ifs <;> rfl

/-- `cancel_job` on a job that is not Running: nothing happens, `False`
is returned. -/
theorem cancel_job_not_running {m : JobManager} {id : String} {j : Job}
    (h : m.get_job id = some j) (hs : ¬ j.status = .running) (now : Nat) :
    m.cancel_job id now = (m, false) := by
  unfold JobManager.get_job at h
  unfold JobManager.cancel_job
  rw [h]
  simp [hs]

/-- `cancel_job` on an unknown job id. -/
theorem cancel_job_unknown {m : JobManager} {id : String}
    (h : m.get_job id = Option.none) (now : Nat) :
    m.cancel_job id now = (m, false) := by
  unfold JobManager.get_job at h
  unfold JobManager.cancel_job
  rw [h]

/-- `cancel_job` on a Running job returns `True`. -/
theorem cancel_job_running_snd {m : JobManager} {id : String} {j : Job}
    (h : m.get_job id = some j) (hs : j.status = .running) (now : Nat) :
    (m.cancel_job id now).2 = true := by
  unfold JobManager.get_job at h
  unfold JobManager.cancel_job
  rw [h]
  simp [hs]

/-- `cancel_job` on a Running job applies
`update_job_status(job_id, CANCELLED)` — with no exit code. -/
theorem cancel_job_running_get {m : JobManager} {id : String} {j : Job}
    (h : m.get_job id = some j) (hs : j.status = .running) (now : Nat) :
    (m.cancel_job id now).1.get_job id =
      some (applyUpdate j .cancelled Option.none Option.none now) := by
  have h' := h
  unfold JobManager.get_job at h'
  unfold JobManager.cancel_job
  rw [h']
  dsimp only
  have hcond : ¬ (j.status ≠ JobStatus.running) := by simp [hs]
  rw [if_neg hcond]
  unfold JobManager.update_job_status
  dsimp only
  rw [h']
  simp [JobManager.get_job, alookup_aset_self]

/-!
## Per-step effect on the tracked job
-/

theorem launchMissingNext_fields {ctx : RunCtx} {s : Sys} {j : Job}
    (h : jobOf ctx s = some j) (p : String) (now : Nat) :
    ∃ j', jobOf ctx (launchMissingNext ctx p now s) = some j' ∧
      j'.status = .failed ∧ j'.exit_code = some 1 ∧
      j'.completed_at = some now ∧ j'.parameters = j.parameters := by
  unfold launchMissingNext
  have h1 := get_job_append (m := s.m) h ("ERROR: " ++ ("Training script not found: " ++ p))
  have h2 := get_job_update h1 .failed (some 1)
               (some ("Training script not found: " ++ p)) now
  refine ⟨_, h2, applyUpdate_status _ _ _ _ _, applyUpdate_exit_code_some _ _ _ _ _,
    applyUpdate_completed_at_terminal _ .failed rfl _ _ _, ?_⟩
  simp [applyUpdate_parameters]

theorem launchPrepNext_fields {ctx : RunCtx} {s : Sys} {j : Job}
    (h : jobOf ctx s = some j) (p : String) (now : Nat) :
    ∃ j', jobOf ctx (launchPrepNext ctx p now s) = some j' ∧
      j'.status = .running ∧ j'.exit_code = j.exit_code ∧
      j'.completed_at = j.completed_at ∧ j'.parameters = j.parameters := by
  unfold launchPrepNext
  have h1 := get_job_update h .running Option.none Option.none now
  have h2 := get_job_append h1
      ("Executing: " ++ String.intercalate " "
        (["bash", p] ++ argsOf ctx.dataset_type ctx.params))
  have h3 := get_job_append h2 eqLine80
  have h4 := get_job_set_log_path h3
      (logFilePath ctx.project_root ctx.dataset_type ctx.job_id now)
  refine ⟨_, h4, ?_, ?_, ?_, ?_⟩ <;>
    simp [applyUpdate_status, applyUpdate_exit_code_none,
      applyUpdate_completed_at_nonterminal j .running rfl,
      applyUpdate_parameters]

theorem emitLineNext_fields {ctx : RunCtx} {s : Sys} {j : Job}
    (h : jobOf ctx s = some j) (x : String) (r : List String) :
    ∃ j', jobOf ctx (emitLineNext ctx x r s) = some j' ∧
      j'.status = j.status ∧ j'.exit_code = j.exit_code ∧
      j'.completed_at = j.completed_at ∧ j'.parameters = j.parameters := by
  unfold emitLineNext
  exact ⟨_, get_job_append h x, rfl, rfl, rfl, rfl⟩

theorem procExitNext_fields {ctx : RunCtx} {s : Sys} {j : Job}
    (h : jobOf ctx s = some j) (now : Nat) :
    ∃ j', jobOf ctx (procExitNext ctx now s) = some j' ∧
      (j'.status = .completed ∨ j'.status = .failed) ∧
      j'.exit_code ≠ Option.none ∧ j'.completed_at = some now ∧
      j'.parameters = j.parameters := by
  unfold procExitNext
  by_cases h0 : ctx.env.exit_status = 0
  · rw [if_pos h0]
    have h1 := get_job_update h .completed (some 0) Option.none now
    have h2 := get_job_append h1 eqLine80
    have h3 := get_job_append h2 "Training completed successfully"
    refine ⟨_, h3, Or.inl ?_, ?_, ?_, ?_⟩ <;>
      simp [applyUpdate_status, applyUpdate_exit_code_some,
        applyUpdate_completed_at_terminal j .completed rfl,
        applyUpdate_parameters]
  · rw [if_neg h0]
    have h1 := get_job_update h .failed (some ctx.env.exit_status)
        (some ("Training failed with exit code " ++ toString ctx.env.exit_status)) now
    have h2 := get_job_append h1 eqLine80
    have h3 := get_job_append h2
        ("ERROR: " ++ ("Training failed with exit code " ++ toString ctx.env.exit_status))
    refine ⟨_, h3, Or.inr ?_, ?_, ?_, ?_⟩ <;>
      simp [applyUpdate_status, applyUpdate_exit_code_some,
        applyUpdate_completed_at_terminal j .failed rfl,
        applyUpdate_parameters]

theorem execExceptNext_fields {ctx : RunCtx} {s : Sys} {j : Job}
    (h : jobOf ctx s = some j) (emsg : String) (now : Nat) :
    ∃ j', jobOf ctx (execExceptNext ctx emsg now s) = some j' ∧
      j'.status = .failed ∧ j'.exit_code = some 1 ∧
      j'.completed_at = some now ∧ j'.parameters = j.parameters := by
  unfold execExceptNext
  have h1 := get_job_append (m := s.m) h ("ERROR: " ++ ("Execution error: " ++ emsg))
  have h2 := get_job_update h1 .failed (some 1) (some ("Execution error: " ++ emsg)) now
  refine ⟨_, h2, applyUpdate_status _ _ _ _ _, applyUpdate_exit_code_some _ _ _ _ _,
    applyUpdate_completed_at_terminal _ .failed rfl _ _ _, ?_⟩
  simp [applyUpdate_parameters]

theorem cancelHandlerNext_fields {ctx : RunCtx} {s : Sys} {j : Job}
    (h : jobOf ctx s = some j) (now : Nat) :
    ∃ j', jobOf ctx (cancelHandlerNext ctx now s) = some j' ∧
      j'.status = .cancelled ∧ j'.exit_code = some (-1) ∧
      j'.completed_at = some now ∧ j'.parameters = j.parameters := by
  unfold cancelHandlerNext
  have h1 := get_job_append (m := s.m) h eqLine80
  have h2 := get_job_append h1 "Training cancelled by user"
  have h3 := get_job_update h2 .cancelled (some (-1)) Option.none now
  refine ⟨_, h3, applyUpdate_status _ _ _ _ _, applyUpdate_exit_code_some _ _ _ _ _,
    applyUpdate_completed_at_terminal _ .cancelled rfl _ _ _, ?_⟩
  simp [applyUpdate_parameters]

/-!
## The reachable-state invariant behind the state machine
-/

/-- Invariant of every reachable state: the job record exists; its status
agrees with the executor's program counter; `exit_code`/`completed_at`
stay unset while the job is Pending or Running; and once `task.cancel()`
has been observed the job is Cancelled, with the -1 sentinel exit code
once the cancellation handler has run. -/
def Inv (ctx : RunCtx) (s : Sys) : Prop :=
  ∃ j, jobOf ctx s = some j ∧
    (s.pc = .notStarted → j.status = .pending) ∧
    ((s.pc = .spawning ∨ ∃ r, s.pc = .launched r) →
        j.status = .running ∨ j.status = .cancelled) ∧
    (s.pc = .finished → j.status.isTerminal = true) ∧
    (j.status = .pending ∨ j.status = .running →
        j.exit_code = Option.none ∧ j.completed_at = Option.none) ∧
    (s.taskCancelled = true → j.status = .cancelled) ∧
    (s.taskCancelled = true → s.pc = .finished → j.exit_code = some (-1))

/-- The job record as freshly created by `initSys`. -/
def initJob (ctx : RunCtx) : Job :=
  { job_id := ctx.job_id, dataset_type := ctx.dataset_type,
    status := .pending, created_at := 0, started_at := Option.none,
    completed_at := Option.none, parameters := ctx.params,
    execution_mode := ctx.execution_mode.value, exit_code := Option.none,
    error_message := Option.none, log_path := Option.none, logs := [] }

theorem jobOf_init (ctx : RunCtx) :
    jobOf ctx (initSys ctx) = some (initJob ctx) := by
  unfold initSys
  dsimp [jobOf, initJob]
  split
  · rw [get_job_register]
    exact get_job_create _ _ _ _ _ _
  · exact get_job_create _ _ _ _ _ _

theorem inv_init (ctx : RunCtx) : Inv ctx (initSys ctx) := by
  refine ⟨initJob ctx, jobOf_init ctx, ?_, ?_, ?_, ?_, ?_, ?_⟩
  · intro _; rfl
  · rintro (h | ⟨r, h⟩) <;> exact ExecPC.noConfusion h
  · intro h; exact ExecPC.noConfusion h
  · intro _; exact ⟨rfl, rfl⟩
  · intro h; exact Bool.noConfusion h
  · intro h; exact absurd h (by simp [initSys])

theorem inv_step {ctx : RunCtx} {strict : Bool} {s s' : Sys}
    (hInv : Inv ctx s) (hs : Step ctx strict s s') : Inv ctx s' := by
  obtain ⟨j, hj, hns, hsl, hfin, hunset, htc, htcf⟩ := hInv
  cases hs with
  | launchMissing p now hpc hsp hex hstrict =>
      have htcF : s.taskCancelled = false := by
        cases h : s.taskCancelled
        · rfl
        · have h1 := htc h
          have h2 := hns hpc
          rw [h2] at h1
          exact absurd h1 (by simp)
      obtain ⟨j', hj', hst, hec, hca, _⟩ := launchMissingNext_fields hj p now
      refine ⟨j', hj', ?_, ?_, ?_, ?_, ?_, ?_⟩
      · intro h; exact ExecPC.noConfusion h
      · rintro (h | ⟨r, h⟩) <;> exact ExecPC.noConfusion h
      · intro _; rw [hst]; rfl
      · rintro (h | h) <;> rw [hst] at h <;> exact absurd h (by simp)
      · intro h
        exact absurd h (by simp [launchMissingNext, htcF])
      · intro h
        exact absurd h (by simp [launchMissingNext, htcF])
  | launchPrep p now hpc hsp hex hstrict =>
      have hpend := hns hpc
      have htcF : s.taskCancelled = false := by
        cases h : s.taskCancelled
        · rfl
        · have h1 := htc h
          rw [hpend] at h1
          exact absurd h1 (by simp)
      obtain ⟨j', hj', hst, hec, hca, _⟩ := launchPrepNext_fields hj p now
      have hu := hunset (Or.inl hpend)
      refine ⟨j', hj', ?_, ?_, ?_, ?_, ?_, ?_⟩
      · intro h; exact ExecPC.noConfusion h
      · intro _; exact Or.inl hst
      · intro h; exact ExecPC.noConfusion h
      · intro _; rw [hec, hca]; exact hu
      · intro h
        exact absurd h (by simp [launchPrepNext, htcF])
      · intro h
        exact absurd h (by simp [launchPrepNext, htcF])
  | spawnOk hpc htcF hok =>
      refine ⟨j, hj, ?_, ?_, ?_, hunset, ?_, ?_⟩
      · intro h; exact ExecPC.noConfusion h
      · intro _; exact hsl (Or.inl hpc)
      · intro h; exact ExecPC.noConfusion h
      · intro h; exact absurd h (by simp [spawnOkNext, htcF])
      · intro h; exact absurd h (by simp [spawnOkNext, htcF])
  | emitLine x r hpc htcF hstrict =>
      obtain ⟨j', hj', hst, hec, hca, _⟩ := emitLineNext_fields hj x r
      refine ⟨j', hj', ?_, ?_, ?_, ?_, ?_, ?_⟩
      · intro h; exact ExecPC.noConfusion h
      · intro _; rw [hst]; exact hsl (Or.inr ⟨x :: r, hpc⟩)
      · intro h; exact ExecPC.noConfusion h
      · intro h; rw [hst] at h; rw [hec, hca]; exact hunset h
      · intro h; exact absurd h (by simp [emitLineNext, htcF])
      · intro h; exact absurd h (by simp [emitLineNext, htcF])
  | procExit now hpc htcF hstrict =>
      obtain ⟨j', hj', hst, hec, hca, _⟩ := procExitNext_fields hj now
      refine ⟨j', hj', ?_, ?_, ?_, ?_, ?_, ?_⟩
      · intro h
        exact absurd h (by simp [procExitNext]; split <;> simp)
      · rintro (h | ⟨r, h⟩) <;>
          exact absurd h (by simp [procExitNext]; split <;> simp)
      · intro _
        rcases hst with h | h <;> rw [h] <;> rfl
      · rintro (h | h) <;> rcases hst with h' | h' <;> rw [h'] at h <;>
          exact absurd h (by simp)
      · intro h
        exact absurd h (by simp [procExitNext, htcF]; split <;> simp [htcF])
      · intro h
        exact absurd h (by simp [procExitNext, htcF]; split <;> simp [htcF])
  | execExcept emsg now hpc htcF hstrict =>
      obtain ⟨j', hj', hst, hec, hca, _⟩ := execExceptNext_fields hj emsg now
      refine ⟨j', hj', ?_, ?_, ?_, ?_, ?_, ?_⟩
      · intro h; exact ExecPC.noConfusion h
      · rintro (h | ⟨r, h⟩) <;> exact ExecPC.noConfusion h
      · intro _; rw [hst]; rfl
      · rintro (h | h) <;> rw [hst] at h <;> exact absurd h (by simp)
      · intro h; exact absurd h (by simp [execExceptNext, htcF])
      · intro h; exact absurd h (by simp [execExceptNext, htcF])
  | cancelHandler now hpc htcT hstrict =>
      obtain ⟨j', hj', hst, hec, hca, _⟩ := cancelHandlerNext_fields hj now
      refine ⟨j', hj', ?_, ?_, ?_, ?_, ?_, ?_⟩
      · intro h; exact ExecPC.noConfusion h
      · rintro (h | ⟨r, h⟩) <;> exact ExecPC.noConfusion h
      · intro _; rw [hst]; rfl
      · rintro (h | h) <;> rw [hst] at h <;> exact absurd h (by simp)
      · intro _; exact hst
      · intro _ _; exact hec
  | apiCancel now =>
      by_cases hrun : j.status = .running
      · have hget := cancel_job_running_get hj hrun now
        refine ⟨applyUpdate j .cancelled Option.none Option.none now, hget, ?_, ?_, ?_, ?_, ?_, ?_⟩
        · intro h
          have := hns h
          rw [hrun] at this
          exact absurd this (by simp)
        · intro _
          exact Or.inr (applyUpdate_status _ _ _ _ _)
        · intro h
          have := hfin h
          rw [hrun] at this
          exact absurd this (by decide)
        · rintro (h | h) <;>
            rw [applyUpdate_status] at h <;> exact absurd h (by simp)
        · intro _
          exact applyUpdate_status _ _ _ _ _
        · intro _ h
          have := hfin h
          rw [hrun] at this
          exact absurd this (by decide)
      · have heq := cancel_job_not_running hj hrun now
        have hnext : apiCancelNext ctx now s = s := by
          obtain ⟨sm, spc, stc, ssub, slc, ssent⟩ := s
          simp_all [apiCancelNext]
        rw [hnext]
        exact ⟨j, hj, hns, hsl, hfin, hunset, htc, htcf⟩
  | subReplayNext i hsub hi =>
      exact ⟨j, hj, hns, hsl, hfin, hunset, htc, htcf⟩
  | subReplayDone i hsub hi =>
      exact ⟨j, hj, hns, hsl, hfin, hunset, htc, htcf⟩
  | subIterSnap hsub hlen =>
      exact ⟨j, hj, hns, hsl, hfin, hunset, htc, htcf⟩
  | subIterSkip hsub hlen hterm =>
      exact ⟨j, hj, hns, hsl, hfin, hunset, htc, htcf⟩
  | subIterClose hsub hlen hterm =>
      exact ⟨j, hj, hns, hsl, hfin, hunset, htc, htcf⟩
  | subSend x p hsub =>
      exact ⟨j, hj, hns, hsl, hfin, hunset, htc, htcf⟩
  | subFlushLoop hsub hterm =>
      exact ⟨j, hj, hns, hsl, hfin, hunset, htc, htcf⟩
  | subFlushClose hsub hterm =>
      exact ⟨j, hj, hns, hsl, hfin, hunset, htc, htcf⟩

theorem inv_reach {ctx : RunCtx} {strict : Bool} {s : Sys}
    (h : Reach ctx strict s) : Inv ctx s := by
  unfold Reach at h
  induction h with
  | refl => exact inv_init ctx
  | tail hr hstep ih => exact inv_step ih hstep

theorem statusOf_eq {ctx : RunCtx} {s : Sys} {j : Job}
    (h : jobOf ctx s = some j) : statusOf ctx s = j.status := by
  unfold statusOf
  rw [h]

/-!
## The status transitions the system can actually take
-/

/-- The status transitions the operations can produce, as established by
`statusStep_allowed`: the transitions of the specified state machine
`Pending -> Running -> {Completed, Failed, Cancelled}` plus
`Pending -> Failed` (launch failure before the job ever runs) and
`Cancelled -> Completed` / `Cancelled -> Failed` (a successful
`cancel_job` with no registered task — the synchronous execution mode —
flips the status while the process keeps running and later overwrites
it). -/
def allowedStatusStep : JobStatus → JobStatus → Bool
  | .pending, .running => true
  | .pending, .failed => true
  | .running, .completed => true
  | .running, .failed => true
  | .running, .cancelled => true
  | .cancelled, .completed => true
  | .cancelled, .failed => true
  | a, b => a = b

theorem allowedStatusStep_refl (a : JobStatus) :
    allowedStatusStep a a = true := by
  cases a <;> rfl

theorem statusStep_allowed {ctx : RunCtx} {strict : Bool} {s s' : Sys}
    (hr : Reach ctx strict s) (hs : Step ctx strict s s') :
    allowedStatusStep (statusOf ctx s) (statusOf ctx s') = true := by
  obtain ⟨j, hj, hns, hsl, hfin, hunset, htc, htcf⟩ := inv_reach hr
  cases hs with
  | launchMissing p now hpc hsp hex hstrict =>
      obtain ⟨j', hj', hst, _, _, _⟩ := launchMissingNext_fields hj p now
      rw [statusOf_eq hj, statusOf_eq hj', hst, hns hpc]
      rfl
  | launchPrep p now hpc hsp hex hstrict =>
      obtain ⟨j', hj', hst, _, _, _⟩ := launchPrepNext_fields hj p now
      rw [statusOf_eq hj, statusOf_eq hj', hst, hns hpc]
      rfl
  | spawnOk hpc htcF hok =>
      rw [statusOf_eq hj,
        statusOf_eq (show jobOf ctx (spawnOkNext ctx s) = some j from hj)]
      exact allowedStatusStep_refl _
  | emitLine x r hpc htcF hstrict =>
      obtain ⟨j', hj', hst, _, _, _⟩ := emitLineNext_fields hj x r
      rw [statusOf_eq hj, statusOf_eq hj', hst]
      exact allowedStatusStep_refl _
  | procExit now hpc htcF hstrict =>
      obtain ⟨j', hj', hst, _, _, _⟩ := procExitNext_fields hj now
      rw [statusOf_eq hj, statusOf_eq hj']
      rcases hsl (Or.inr ⟨[], hpc⟩) with h | h <;> rcases hst with h' | h' <;>
        rw [h, h'] <;> rfl
  | execExcept emsg now hpc htcF hstrict =>
      obtain ⟨j', hj', hst, _, _, _⟩ := execExceptNext_fields hj emsg now
      rw [statusOf_eq hj, statusOf_eq hj', hst]
      rcases hsl hpc with h | h <;> rw [h] <;> rfl
  | cancelHandler now hpc htcT hstrict =>
      obtain ⟨j', hj', hst, _, _, _⟩ := cancelHandlerNext_fields hj now
      rw [statusOf_eq hj, statusOf_eq hj', hst, htc htcT]
      rfl
  | apiCancel now =>
      by_cases hrun : j.status = .running
      · have hget := cancel_job_running_get hj hrun now
        rw [statusOf_eq hj,
          statusOf_eq (show jobOf ctx (apiCancelNext ctx now s) =
            some (applyUpdate j .cancelled Option.none Option.none now) from hget),
          applyUpdate_status, hrun]
        rfl
      · have heq := cancel_job_not_running hj hrun now
        have hm : (s.m.cancel_job ctx.job_id now).1 = s.m := congrArg Prod.fst heq
        have hj2 : jobOf ctx (apiCancelNext ctx now s) = some j := by
          show (s.m.cancel_job ctx.job_id now).1.get_job ctx.job_id = some j
          rw [hm]
          exact hj
        rw [statusOf_eq hj, statusOf_eq hj2]
        exact allowedStatusStep_refl _
  | subReplayNext i hsub hi =>
      rw [statusOf_eq hj,
        statusOf_eq (show jobOf ctx (subReplaySendNext ctx i s) = some j from hj)]
      exact allowedStatusStep_refl _
  | subReplayDone i hsub hi =>
      rw [statusOf_eq hj,
        statusOf_eq (show jobOf ctx (subReplayDoneNext ctx s) = some j from hj)]
      exact allowedStatusStep_refl _
  | subIterSnap hsub hlen =>
      rw [statusOf_eq hj,
        statusOf_eq (show jobOf ctx (subIterSnapNext ctx s) = some j from hj)]
      exact allowedStatusStep_refl _
  | subIterSkip hsub hlen hterm =>
      rw [statusOf_eq hj]
      exact allowedStatusStep_refl _
  | subIterClose hsub hlen hterm =>
      rw [statusOf_eq hj,
        statusOf_eq (show jobOf ctx (subIterCloseNext ctx s) = some j from hj)]
      exact allowedStatusStep_refl _
  | subSend x p hsub =>
      rw [statusOf_eq hj,
        statusOf_eq (show jobOf ctx (subSendNext x p s) = some j from hj)]
      exact allowedStatusStep_refl _
  | subFlushLoop hsub hterm =>
      rw [statusOf_eq hj,
        statusOf_eq (show jobOf ctx (subFlushLoopNext ctx s) = some j from hj)]
      exact allowedStatusStep_refl _
  | subFlushClose hsub hterm =>
      rw [statusOf_eq hj,
        statusOf_eq (show jobOf ctx (subFlushCloseNext ctx s) = some j from hj)]
      exact allowedStatusStep_refl _

/-!
## `exit_code` / `completed_at` discipline
-/

/-- Any step that moves the job from a non-terminal status into Completed
or Failed sets `exit_code` and `completed_at` together. -/
theorem step_terminal_sets_both {ctx : RunCtx} {strict : Bool} {s s' : Sys}
    (hr : Reach ctx strict s) (hs : Step ctx strict s s') {j j' : Job}
    (h1 : jobOf ctx s = some j) (h1' : jobOf ctx s' = some j')
    (hpre : j.status = .pending ∨ j.status = .running)
    (hpost : j'.status = .completed ∨ j'.status = .failed) :
    j'.exit_code ≠ Option.none ∧ j'.completed_at ≠ Option.none := by
  obtain ⟨ji, hji, hns, hsl, hfin, hunset, htc, htcf⟩ := inv_reach hr
  rw [h1] at hji
  cases Option.some.inj hji
  clear hji
  cases hs with
  | launchMissing p now hpc hsp hex hstrict =>
      obtain ⟨jX, hjX, hst, hec, hca, _⟩ := launchMissingNext_fields h1 p now
      rw [hjX] at h1'
      obtain rfl : jX = j' := Option.some.inj h1'
      exact ⟨by rw [hec]; simp, by rw [hca]; simp⟩
  | launchPrep p now hpc hsp hex hstrict =>
      obtain ⟨jX, hjX, hst, hec, hca, _⟩ := launchPrepNext_fields h1 p now
      rw [hjX] at h1'
      obtain rfl : jX = j' := Option.some.inj h1'
      rcases hpost with h | h <;> rw [hst] at h <;> exact absurd h (by decide)
  | spawnOk hpc htcF hok =>
      have h2 : jobOf ctx s = some j' := h1'
      rw [h1] at h2
      obtain rfl : j = j' := Option.some.inj h2
      rcases hpre with h | h <;> rcases hpost with h' | h' <;> rw [h] at h' <;>
        exact absurd h' (by decide)
  | emitLine x r hpc htcF hstrict =>
      obtain ⟨jX, hjX, hst, hec, hca, _⟩ := emitLineNext_fields h1 x r
      rw [hjX] at h1'
      obtain rfl : jX = j' := Option.some.inj h1'
      rw [hst] at hpost
      rcases hpre with h | h <;> rcases hpost with h' | h' <;> rw [h] at h' <;>
        exact absurd h' (by decide)
  | procExit now hpc htcF hstrict =>
      obtain ⟨jX, hjX, hst, hec, hca, _⟩ := procExitNext_fields h1 now
      rw [hjX] at h1'
      obtain rfl : jX = j' := Option.some.inj h1'
      exact ⟨hec, by rw [hca]; simp⟩
  | execExcept emsg now hpc htcF hstrict =>
      obtain ⟨jX, hjX, hst, hec, hca, _⟩ := execExceptNext_fields h1 emsg now
      rw [hjX] at h1'
      obtain rfl : jX = j' := Option.some.inj h1'
      exact ⟨by rw [hec]; simp, by rw [hca]; simp⟩
  | cancelHandler now hpc htcT hstrict =>
      rcases hpre with h | h <;> rw [htc htcT] at h <;> exact absurd h (by decide)
  | apiCancel now =>
      by_cases hrun : j.status = .running
      · have hget := cancel_job_running_get h1 hrun now
        have h2 : jobOf ctx (apiCancelNext ctx now s) =
            some (applyUpdate j .cancelled Option.none Option.none now) := hget
        rw [h2] at h1'
        obtain rfl := Option.some.inj h1'
        rcases hpost with h | h <;> rw [applyUpdate_status] at h <;>
          exact absurd h (by decide)
      · have heq := cancel_job_not_running h1 hrun now
        have hm : (s.m.cancel_job ctx.job_id now).1 = s.m := congrArg Prod.fst heq
        have h2 : jobOf ctx (apiCancelNext ctx now s) = some j := by
          show (s.m.cancel_job ctx.job_id now).1.get_job ctx.job_id = some j
          rw [hm]
          exact h1
        rw [h2] at h1'
        obtain rfl : j = j' := Option.some.inj h1'
        rcases hpre with h | h <;> rcases hpost with h' | h' <;> rw [h] at h' <;>
          exact absurd h' (by decide)
  | subReplayNext i hsub hi =>
      have h2 : jobOf ctx s = some j' := h1'
      rw [h1] at h2
      obtain rfl : j = j' := Option.some.inj h2
      rcases hpre with h | h <;> rcases hpost with h' | h' <;> rw [h] at h' <;>
        exact absurd h' (by decide)
  | subReplayDone i hsub hi =>
      have h2 : jobOf ctx s = some j' := h1'
      rw [h1] at h2
      obtain rfl : j = j' := Option.some.inj h2
      rcases hpre with h | h <;> rcases hpost with h' | h' <;> rw [h] at h' <;>
        exact absurd h' (by decide)
  | subIterSnap hsub hlen =>
      have h2 : jobOf ctx s = some j' := h1'
      rw [h1] at h2
      obtain rfl : j = j' := Option.some.inj h2
      rcases hpre with h | h <;> rcases hpost with h' | h' <;> rw [h] at h' <;>
        exact absurd h' (by decide)
  | subIterSkip hsub hlen hterm =>
      have h2 : jobOf ctx s = some j' := h1'
      rw [h1] at h2
      obtain rfl : j = j' := Option.some.inj h2
      rcases hpre with h | h <;> rcases hpost with h' | h' <;> rw [h] at h' <;>
        exact absurd h' (by decide)
  | subIterClose hsub hlen hterm =>
      have h2 : jobOf ctx s = some j' := h1'
      rw [h1] at h2
      obtain rfl : j = j' := Option.some.inj h2
      rcases hpre with h | h <;> rcases hpost with h' | h' <;> rw [h] at h' <;>
        exact absurd h' (by decide)
  | subSend x p hsub =>
      have h2 : jobOf ctx s = some j' := h1'
      rw [h1] at h2
      obtain rfl : j = j' := Option.some.inj h2
      rcases hpre with h | h <;> rcases hpost with h' | h' <;> rw [h] at h' <;>
        exact absurd h' (by decide)
  | subFlushLoop hsub hterm =>
      have h2 : jobOf ctx s = some j' := h1'
      rw [h1] at h2
      obtain rfl : j = j' := Option.some.inj h2
      rcases hpre with h | h <;> rcases hpost with h' | h' <;> rw [h] at h' <;>
        exact absurd h' (by decide)
  | subFlushClose hsub hterm =>
      have h2 : jobOf ctx s = some j' := h1'
      rw [h1] at h2
      obtain rfl : j = j' := Option.some.inj h2
      rcases hpre with h | h <;> rcases hpost with h' | h' <;> rw [h] at h' <;>
        exact absurd h' (by decide)

/-- The only step that moves the job from Running to Cancelled is the
`cancel_job` call of the `/cancel` route, and it leaves `exit_code` unset
while setting `completed_at`. -/
theorem cancel_flip_exit_unset {ctx : RunCtx} {strict : Bool} {s s' : Sys}
    (hr : Reach ctx strict s) (hs : Step ctx strict s s') {j j' : Job}
    (h1 : jobOf ctx s = some j) (h1' : jobOf ctx s' = some j')
    (hpre : j.status = .running) (hpost : j'.status = .cancelled) :
    j'.exit_code = Option.none ∧ j'.completed_at ≠ Option.none := by
  obtain ⟨ji, hji, hns, hsl, hfin, hunset, htc, htcf⟩ := inv_reach hr
  rw [h1] at hji
  cases Option.some.inj hji
  clear hji
  cases hs with
  | launchMissing p now hpc hsp hex hstrict =>
      obtain ⟨jX, hjX, hst, hec, hca, _⟩ := launchMissingNext_fields h1 p now
      rw [hjX] at h1'
      obtain rfl : jX = j' := Option.some.inj h1'
      rw [hst] at hpost
      exact absurd hpost (by decide)
  | launchPrep p now hpc hsp hex hstrict =>
      obtain ⟨jX, hjX, hst, hec, hca, _⟩ := launchPrepNext_fields h1 p now
      rw [hjX] at h1'
      obtain rfl : jX = j' := Option.some.inj h1'
      rw [hst] at hpost
      exact absurd hpost (by decide)
  | spawnOk hpc htcF hok =>
      have h2 : jobOf ctx s = some j' := h1'
      rw [h1] at h2
      obtain rfl : j = j' := Option.some.inj h2
      rw [hpre] at hpost
      exact absurd hpost (by decide)
  | emitLine x r hpc htcF hstrict =>
      obtain ⟨jX, hjX, hst, hec, hca, _⟩ := emitLineNext_fields h1 x r
      rw [hjX] at h1'
      obtain rfl : jX = j' := Option.some.inj h1'
      rw [hst, hpre] at hpost
      exact absurd hpost (by decide)
  | procExit now hpc htcF hstrict =>
      obtain ⟨jX, hjX, hst, hec, hca, _⟩ := procExitNext_fields h1 now
      rw [hjX] at h1'
      obtain rfl : jX = j' := Option.some.inj h1'
      rcases hst with h | h <;> rw [h] at hpost <;> exact absurd hpost (by decide)
  | execExcept emsg now hpc htcF hstrict =>
      obtain ⟨jX, hjX, hst, hec, hca, _⟩ := execExceptNext_fields h1 emsg now
      rw [hjX] at h1'
      obtain rfl : jX = j' := Option.some.inj h1'
      rw [hst] at hpost
      exact absurd hpost (by decide)
  | cancelHandler now hpc htcT hstrict =>
      rw [htc htcT] at hpre
      exact absurd hpre (by decide)
  | apiCancel now =>
      by_cases hrun : j.status = .running
      · have hget := cancel_job_running_get h1 hrun now
        have h2 : jobOf ctx (apiCancelNext ctx now s) =
            some (applyUpdate j .cancelled Option.none Option.none now) := hget
        rw [h2] at h1'
        obtain rfl := Option.some.inj h1'
        refine ⟨?_, ?_⟩
        · rw [applyUpdate_exit_code_none]
          exact (hunset (Or.inr hrun)).1
        · rw [applyUpdate_completed_at_terminal j .cancelled rfl]
          simp
      · exact absurd hpre hrun
  | subReplayNext i hsub hi =>
      have h2 : jobOf ctx s = some j' := h1'
      rw [h1] at h2
      obtain rfl : j = j' := Option.some.inj h2
      rw [hpre] at hpost
      exact absurd hpost (by decide)
  | subReplayDone i hsub hi =>
      have h2 : jobOf ctx s = some j' := h1'
      rw [h1] at h2
      obtain rfl : j = j' := Option.some.inj h2
      rw [hpre] at hpost
      exact absurd hpost (by decide)
  | subIterSnap hsub hlen =>
      have h2 : jobOf ctx s = some j' := h1'
      rw [h1] at h2
      obtain rfl : j = j' := Option.some.inj h2
      rw [hpre] at hpost
      exact absurd hpost (by decide)
  | subIterSkip hsub hlen hterm =>
      have h2 : jobOf ctx s = some j' := h1'
      rw [h1] at h2
      obtain rfl : j = j' := Option.some.inj h2
      rw [hpre] at hpost
      exact absurd hpost (by decide)
  | subIterClose hsub hlen hterm =>
      have h2 : jobOf ctx s = some j' := h1'
      rw [h1] at h2
      obtain rfl : j = j' := Option.some.inj h2
      rw [hpre] at hpost
      exact absurd hpost (by decide)
  | subSend x p hsub =>
      have h2 : jobOf ctx s = some j' := h1'
      rw [h1] at h2
      obtain rfl : j = j' := Option.some.inj h2
      rw [hpre] at hpost
      exact absurd hpost (by decide)
  | subFlushLoop hsub hterm =>
      have h2 : jobOf ctx s = some j' := h1'
      rw [h1] at h2
      obtain rfl : j = j' := Option.some.inj h2
      rw [hpre] at hpost
      exact absurd hpost (by decide)
  | subFlushClose hsub hterm =>
      have h2 : jobOf ctx s = some j' := h1'
      rw [h1] at h2
      obtain rfl : j = j' := Option.some.inj h2
      rw [hpre] at hpost
      exact absurd hpost (by decide)

/-- The asynchronous cancellation handler is the only way the executor
finishes once `task.cancel()` was observed, and it sets the -1 sentinel
exit code and `completed_at`. -/
theorem cancelHandler_sets_sentinel {ctx : RunCtx} {strict : Bool}
    {s s' : Sys} (hr : Reach ctx strict s) (hs : Step ctx strict s s')
    {j' : Job} (h1' : jobOf ctx s' = some j')
    (htcT : s.taskCancelled = true) (hnf : ¬ s.pc = .finished)
    (hf : s'.pc = .finished) :
    j'.exit_code = some (-1) ∧ j'.completed_at ≠ Option.none := by
  obtain ⟨ji, hji, hns, hsl, hfin, hunset, htc, htcf⟩ := inv_reach hr
  cases hs with
  | launchMissing p now hpc hsp hex hstrict =>
      have h1 := hns hpc
      rw [htc htcT] at h1
      exact absurd h1 (by decide)
  | launchPrep p now hpc hsp hex hstrict =>
      have h1 := hns hpc
      rw [htc htcT] at h1
      exact absurd h1 (by decide)
  | spawnOk hpc htcF hok =>
      rw [htcT] at htcF
      exact absurd htcF (by decide)
  | emitLine x r hpc htcF hstrict =>
      rw [htcT] at htcF
      exact absurd htcF (by decide)
  | procExit now hpc htcF hstrict =>
      rw [htcT] at htcF
      exact absurd htcF (by decide)
  | execExcept emsg now hpc htcF hstrict =>
      rw [htcT] at htcF
      exact absurd htcF (by decide)
  | cancelHandler now hpc htcT2 hstrict =>
      obtain ⟨jX, hjX, hst, hec, hca, _⟩ := cancelHandlerNext_fields hji now
      rw [hjX] at h1'
      obtain rfl : jX = j' := Option.some.inj h1'
      exact ⟨hec, by rw [hca]; simp⟩
  | apiCancel now =>
      exact absurd hf hnf
  | subReplayNext i hsub hi =>
      exact absurd hf hnf
  | subReplayDone i hsub hi =>
      exact absurd hf hnf
  | subIterSnap hsub hlen =>
      exact absurd hf hnf
  | subIterSkip hsub hlen hterm =>
      exact absurd hf hnf
  | subIterClose hsub hlen hterm =>
      exact absurd hf hnf
  | subSend x p hsub =>
      exact absurd hf hnf
  | subFlushLoop hsub hterm =>
      exact absurd hf hnf
  | subFlushClose hsub hterm =>
      exact absurd hf hnf

/-!
## Concrete scenarios
-/

/-- Environment with no training script on disk. -/
def envMissing : ExecEnv :=
  { script_exists := fun _ => false, spawn_ok := true, spawn_error := "",
    output_lines := [], exit_status := 0 }

/-- Environment where the script exists and the process writes one line
and exits 0. -/
def envOneLine : ExecEnv :=
  { script_exists := fun _ => true, spawn_ok := true, spawn_error := "",
    output_lines := ["out-1"], exit_status := 0 }

/-- The rf100vl training script path under project root `/proj`. -/
def rfScript : String := "/proj/scripts/train_rf100vl.sh"

/-- An async rf100vl submission with no script on disk. -/
def ctxMissing : RunCtx :=
  { project_root := "/proj", job_id := "job-1", dataset_type := "rf100vl",
    params := [], execution_mode := .ASYNC, env := envMissing }

/-- An async rf100vl submission whose process would write one line. -/
def ctxAsync : RunCtx :=
  { project_root := "/proj", job_id := "job-1", dataset_type := "rf100vl",
    params := [], execution_mode := .ASYNC, env := envOneLine }

/-- The same submission in synchronous execution mode (no task is
registered). -/
def ctxSync : RunCtx :=
  { project_root := "/proj", job_id := "job-1", dataset_type := "rf100vl",
    params := [], execution_mode := .SYNC, env := envOneLine }

/-- Missing-script run: the single executor step. -/
def sM1 : Sys := launchMissingNext ctxMissing rfScript 1 (initSys ctxMissing)

/-- Async run, then a `/cancel` request, then the cancellation handler. -/
def sA0 : Sys := initSys ctxAsync

def sA1 : Sys := launchPrepNext ctxAsync rfScript 1 sA0

def sA2 : Sys := apiCancelNext ctxAsync 2 sA1

def sA3 : Sys := cancelHandlerNext ctxAsync 3 sA2

theorem step_sA0_sA1 : Step ctxAsync false sA0 sA1 :=
  Step.launchPrep sA0 rfScript 1 rfl (by decide) rfl (fun h => nomatch h)

theorem reach_sA1 : Reach ctxAsync false sA1 :=
  Relation.ReflTransGen.tail Relation.ReflTransGen.refl step_sA0_sA1

theorem reach_sA2 : Reach ctxAsync false sA2 :=
  Relation.ReflTransGen.tail reach_sA1 (Step.apiCancel sA1 2)

theorem reach_sA3 : Reach ctxAsync false sA3 :=
  Relation.ReflTransGen.tail reach_sA2
    (Step.cancelHandler sA2 3 (Or.inl rfl) (by decide) (fun h => nomatch h))

/-- Sync run: launch, spawn, a successful `/cancel` while Running, then
the process (which nothing terminated) emits its line and exits 0. -/
def sS0 : Sys := initSys ctxSync

def sS1 : Sys := launchPrepNext ctxSync rfScript 1 sS0

def sS2 : Sys := spawnOkNext ctxSync sS1

def sS3 : Sys := apiCancelNext ctxSync 2 sS2

def sS4 : Sys := emitLineNext ctxSync "out-1" [] sS3

def sS5 : Sys := procExitNext ctxSync 3 sS4

theorem reach_sS2 : Reach ctxSync false sS2 :=
  Relation.ReflTransGen.tail
    (Relation.ReflTransGen.tail Relation.ReflTransGen.refl
      (Step.launchPrep sS0 rfScript 1 rfl (by decide) rfl (fun h => nomatch h)))
    (Step.spawnOk sS1 rfl rfl rfl)

theorem reach_sS5 : Reach ctxSync false sS5 :=
  Relation.ReflTransGen.tail
    (Relation.ReflTransGen.tail
      (Relation.ReflTransGen.tail reach_sS2 (Step.apiCancel sS2 2))
      (Step.emitLine sS3 "out-1" [] rfl (by decide) (fun h => nomatch h)))
    (Step.procExit sS4 3 rfl (by decide) (fun h => nomatch h))

/-- The job's `completed_at` field. -/
def completedOf (ctx : RunCtx) (s : Sys) : Option Nat :=
  (jobOf ctx s).bind Job.completed_at

/-!
## Claims C1 - C3
-/

/-- **Claim C1, counterexample.**  The claim asserts that every terminal
status is reachable only from Running.  But when the training script is
missing, `execute_training` moves the job from Pending directly to Failed
(the terminal status Failed is entered from Pending, which is not
Running). -/
theorem C1_counterexample :
    Reach ctxMissing false (initSys ctxMissing) ∧
    Step ctxMissing false (initSys ctxMissing) sM1 ∧
    statusOf ctxMissing (initSys ctxMissing) = .pending ∧
    statusOf ctxMissing sM1 = .failed ∧
    JobStatus.failed.isTerminal = true ∧
    JobStatus.pending ≠ JobStatus.running :=
  ⟨Relation.ReflTransGen.refl,
   Step.launchMissing (initSys ctxMissing) rfScript 1 rfl (by decide) rfl
     (fun h => nomatch h),
   by decide, by decide, rfl, by decide⟩

/-- **Claim C1 (amended).**  For every job, every step of the system
(`create_job`, `update_job_status` as invoked by the executor and routes,
`cancel_job`, `execute_training`) changes the status along
`Pending -> Running -> {Completed, Failed, Cancelled}` — except that
(a) a launch failure moves Pending directly to Failed, and (b) a
successful `cancel_job` of a job with no registered background task
(synchronous execution) marks it Cancelled while the executor keeps
running, so Cancelled can later be overwritten by Completed or Failed.
No step leaves Completed or Failed, and Running is entered only from
Pending. -/
theorem C1_status_transitions {ctx : RunCtx} {strict : Bool} {s s' : Sys}
    (hr : Reach ctx strict s) (hs : Step ctx strict s s') :
    allowedStatusStep (statusOf ctx s) (statusOf ctx s') = true :=
  statusStep_allowed hr hs

theorem C1_status_transitions_witness :
    allowedStatusStep (statusOf ctxAsync sA0) (statusOf ctxAsync sA1) = true :=
  C1_status_transitions Relation.ReflTransGen.refl step_sA0_sA1

/-- **Claim C2, counterexample.**  The claim asserts `exit_code` and
`completed_at` are set together, exactly once, at the first terminal
transition, and never changed afterwards.  But a `/cancel` of a Running
job calls `update_job_status(job_id, CANCELLED)` with no exit code: right
after it the job is terminal with `completed_at` set and `exit_code`
still unset; the cancellation handler then sets `exit_code = -1` and
overwrites `completed_at` a second time. -/
theorem C2_counterexample :
    Reach ctxAsync false sA2 ∧
    statusOf ctxAsync sA2 = .cancelled ∧
    JobStatus.cancelled.isTerminal = true ∧
    completedOf ctxAsync sA2 = some 2 ∧
    exitOf ctxAsync sA2 = Option.none ∧
    Reach ctxAsync false sA3 ∧
    completedOf ctxAsync sA3 = some 3 ∧
    exitOf ctxAsync sA3 = some (-1) :=
  ⟨reach_sA2, by decide, rfl, by decide, by decide, reach_sA3, by decide,
   by decide⟩

/-- **Claim C2 (amended).**  For every job: (1) `exit_code` and
`completed_at` are both unset while the status is Pending or Running;
(2) any step that moves the job from a non-terminal status into Completed
or Failed sets both together; (3) the transition Running -> Cancelled
(the `cancel_job` path) sets `completed_at` but leaves `exit_code` unset;
(4) the asynchronous cancellation handler (the only way the executor
finishes after `task.cancel()`) later sets `exit_code = -1` and updates
`completed_at` again. -/
theorem C2_exit_code_discipline {ctx : RunCtx} {strict : Bool} {s s' : Sys}
    {j j' : Job} (hr : Reach ctx strict s) (hs : Step ctx strict s s')
    (h1 : jobOf ctx s = some j) (h1' : jobOf ctx s' = some j') :
    ((j.status = .pending ∨ j.status = .running) →
        j.exit_code = Option.none ∧ j.completed_at = Option.none) ∧
    ((j.status = .pending ∨ j.status = .running) →
        (j'.status = .completed ∨ j'.status = .failed) →
        j'.exit_code ≠ Option.none ∧ j'.completed_at ≠ Option.none) ∧
    (j.status = .running → j'.status = .cancelled →
        j'.exit_code = Option.none ∧ j'.completed_at ≠ Option.none) ∧
    (s.taskCancelled = true → ¬ s.pc = .finished → s'.pc = .finished →
        j'.exit_code = some (-1) ∧ j'.completed_at ≠ Option.none) := by
  refine ⟨?_, ?_, ?_, ?_⟩
  · intro hpr
    obtain ⟨ji, hji, _, _, _, hunset, _, _⟩ := inv_reach hr
    rw [h1] at hji
    cases Option.some.inj hji
    exact hunset hpr
  · exact fun hpre hpost => step_terminal_sets_both hr hs h1 h1' hpre hpost
  · exact fun hpre hpost => cancel_flip_exit_unset hr hs h1 h1' hpre hpost
  · exact fun htcT hnf hf => cancelHandler_sets_sentinel hr hs h1' htcT hnf hf

/-- The tracked job right after `launchPrepNext` in the async scenario. -/
def jA1 : Job := (jobOf ctxAsync sA1).getD (initJob ctxAsync)

/-- The tracked job right after the `/cancel` in the async scenario. -/
def jA2 : Job := (jobOf ctxAsync sA2).getD (initJob ctxAsync)

theorem C2_exit_code_discipline_witness :
    jA1.exit_code = Option.none ∧ jA1.completed_at = Option.none :=
  (C2_exit_code_discipline reach_sA1 (Step.apiCancel sA1 2)
      (show jobOf ctxAsync sA1 = some jA1 by decide)
      (show jobOf ctxAsync sA2 = some jA2 by decide)).1 (Or.inr (by decide))

/-- **Claim C3, counterexample.**  The claim asserts a job cancelled while
Running always ends Cancelled with the -1 sentinel, never another
terminal status.  In synchronous execution mode no task is registered, so
a successful `cancel_job` flips the status to Cancelled but terminates
nothing: the process keeps running and the executor then overwrites the
job to Completed with exit code 0. -/
theorem C3_counterexample :
    Reach ctxSync false sS5 ∧
    statusOf ctxSync sS2 = .running ∧
    (sS2.m.cancel_job "job-1" 2).2 = true ∧
    statusOf ctxSync sS3 = .cancelled ∧
    sS5.pc = .finished ∧
    statusOf ctxSync sS5 = .completed ∧
    exitOf ctxSync sS5 = some 0 :=
  ⟨reach_sS5, by decide, by decide, by decide, rfl, by decide, by decide⟩

/-- **Claim C3 (amended).**  When the backing task was registered and
cancelled (`taskCancelled`, i.e. the `/cancel` route cancelled a Running
job in asynchronous mode), the run ends — the executor coroutine finishes
— with status Cancelled (hence never Failed) and with the reserved
cancellation sentinel `exit_code = -1`. -/
theorem C3_async_cancel_sentinel {ctx : RunCtx} {strict : Bool} {s : Sys}
    (hr : Reach ctx strict s) (htcT : s.taskCancelled = true)
    (hf : s.pc = .finished) :
    statusOf ctx s = .cancelled ∧ exitOf ctx s = some (-1) := by
  obtain ⟨j, hj, _, _, _, _, htc, htcf⟩ := inv_reach hr
  refine ⟨?_, ?_⟩
  · rw [statusOf_eq hj]
    exact htc htcT
  · unfold exitOf
    rw [hj]
    simpa using htcf htcT hf

theorem C3_async_cancel_sentinel_witness :
    statusOf ctxAsync sA3 = .cancelled ∧ exitOf ctxAsync sA3 = some (-1) :=
  C3_async_cancel_sentinel reach_sA3 (by decide) rfl

/-!
## Claim C6: the bounded log buffer
-/

/-- The last `n` elements of a list. -/
def takeLast (l : List String) (n : Nat) : List String :=
  l.drop (l.length - n)

theorem takeLast_of_le {l : List String} {n : Nat} (h : l.length ≤ n) :
    takeLast l n = l := by
  unfold takeLast
  rw [Nat.sub_eq_zero_of_le h, List.drop_zero]

theorem takeLast_length_le (l : List String) (n : Nat) :
    (takeLast l n).length ≤ n := by
  unfold takeLast
  rw [List.length_drop]
  omega

theorem takeLast_eq_reverse_take (l : List String) (n : Nat) :
    takeLast l n = (l.reverse.take n).reverse := by
  unfold takeLast
  rcases le_or_lt n l.length with h | h
  · have h2 : (l.drop (l.length - n)).reverse = l.reverse.take n := by
      rw [List.reverse_drop]
      congr 1
      omega
    rw [← h2, List.reverse_reverse]
  · rw [Nat.sub_eq_zero_of_le (le_of_lt h), List.drop_zero,
      List.take_of_length_le (by rw [List.length_reverse]; omega),
      List.reverse_reverse]

theorem take_append_take (C D : List String) (n : Nat) :
    (C ++ D.take n).take n = (C ++ D).take n := by
  simp only [List.take_append_eq_append_take, List.take_take,
    Nat.min_eq_left (Nat.sub_le n C.length)]

theorem takeLast_append_takeLast (A B : List String) (n : Nat) :
    takeLast (takeLast A n ++ B) n = takeLast (A ++ B) n := by
  rw [takeLast_eq_reverse_take A n, takeLast_eq_reverse_take,
    takeLast_eq_reverse_take (A ++ B) n, List.reverse_append,
    List.reverse_reverse, List.reverse_append, take_append_take]

/-- One bounded append is "keep the last 10000 of the appended list". -/
theorem appendBounded_eq_takeLast {logs : List String}
    (h : logs.length ≤ 10000) (x : String) :
    appendBounded logs x = takeLast (logs ++ [x]) 10000 := by
  unfold appendBounded takeLast
  by_cases hl : (logs ++ [x]).length > 10000
  · rw [if_pos hl]
  · rw [if_neg hl]
    have h0 : (logs ++ [x]).length - 10000 = 0 := by
      simp only [List.length_append, List.length_cons, List.length_nil] at hl ⊢
      omega
    rw [h0, List.drop_zero]

/-- `append_log` iterated over a list of lines. -/
def appendAll (m : JobManager) (id : String) (L : List String) : JobManager :=
  L.foldl (fun m line => m.append_log id line) m

theorem appendAll_logs (L : List String) :
    ∀ (m : JobManager) (id : String) (j : Job), m.get_job id = some j →
      j.logs.length ≤ 10000 →
      ∃ j', (appendAll m id L).get_job id = some j' ∧
        j'.logs = takeLast (j.logs ++ L) 10000 := by
  induction L with
  | nil =>
      intro m id j h hlen
      refine ⟨j, h, ?_⟩
      rw [List.append_nil, takeLast_of_le hlen]
  | cons x t ih =>
      intro m id j h hlen
      have h1 := get_job_append h x
      have hlen1 : (appendBounded j.logs x).length ≤ 10000 := by
        rw [appendBounded_eq_takeLast hlen]
        exact takeLast_length_le _ _
      obtain ⟨j', hj', hlogs⟩ := ih (m.append_log id x) id _ h1 hlen1
      refine ⟨j', hj', ?_⟩
      rw [hlogs]
      dsimp only
      rw [appendBounded_eq_takeLast hlen, takeLast_append_takeLast,
        List.append_assoc, List.singleton_append]

/-- **Claim C6.**  For every job, `append_log` keeps the buffer bounded:
starting from a freshly created job, after appending any list `L` of
lines the buffer is exactly the most recent 10000 lines of `L` in their
original order (`L.drop (L.length - 10000)`, a suffix of `L` — the oldest
lines are evicted first and nothing is reordered), its length never
exceeds 10000, and `get_logs` returns exactly that buffer.  In
particular, after appending 10001 lines the buffer is the most recent
10000 (`L.drop 1`). -/
theorem C6_log_buffer_bounded (m : JobManager) (id dt em : String)
    (ps : List (String × ParamValue)) (now : Nat) (L : List String) :
    ∃ j, (appendAll (m.create_job id dt ps em now) id L).get_job id = some j ∧
      j.logs = L.drop (L.length - 10000) ∧
      j.logs.length ≤ 10000 ∧
      j.logs <:+ L ∧
      (appendAll (m.create_job id dt ps em now) id L).get_logs id Option.none
        = j.logs := by
  obtain ⟨j, hj, hlogs⟩ :=
    appendAll_logs L _ id _ (get_job_create m id dt ps em now) (by simp)
  rw [List.nil_append] at hlogs
  refine ⟨j, hj, hlogs, ?_, ?_, ?_⟩
  · rw [hlogs]
    exact takeLast_length_le _ _
  · rw [hlogs]
    exact List.drop_suffix _ _
  · unfold JobManager.get_logs
    rw [show alookup (appendAll (m.create_job id dt ps em now) id L).jobs id
          = some j from hj]

/-!
## Claims C4 and C7: the cancel operation
-/

/-- A store holding one freshly created (Pending) job. -/
def mPending : JobManager :=
  JobManager.empty.create_job "job-1" "rf100vl" [] "async" 0

/-- The same store after registering a task and marking the job Running. -/
def mRunning : JobManager :=
  ((mPending.register_task "job-1").update_job_status "job-1" .running
    Option.none Option.none 1).1

/-- The Running job record of `mRunning`. -/
def jRunning : Job := (mRunning.get_job "job-1").getD (initJob ctxAsync)

theorem contains_filter_ne (l : List String) (id : String) :
    (l.filter (· ≠ id)).contains id = false := by
  induction l with
  | nil => rfl
  | cons a t ih =>
      by_cases hx : a = id
      · simp [List.filter_cons, hx, ih]
      · simp [List.filter_cons, hx, ih, Ne.symm hx]

/-- A successful `cancel_job` removes the job from `running_tasks`. -/
theorem cancel_job_running_tasks {m : JobManager} {id : String} {j : Job}
    (h : m.get_job id = some j) (hs : j.status = .running) (now : Nat) :
    (m.cancel_job id now).1.running_tasks.contains id = false := by
  have h' := h
  unfold JobManager.get_job at h'
  unfold JobManager.cancel_job
  rw [h']
  dsimp only
  rw [if_neg (by simp [hs] : ¬ (j.status ≠ JobStatus.running))]
  rw [update_running_tasks]
  dsimp only
  by_cases hc : m.running_tasks.contains id
  · rw [if_pos hc]
    exact contains_filter_ne _ _
  · rw [if_neg hc]
    exact Bool.not_eq_true _ ▸ hc

/-- **Claim C4, counterexample.**  The claim asserts a cancellation
request for a job that is still Pending is accepted and moves it
Pending -> Cancelled.  But `cancel_job` returns `False` for any job that
is not Running and leaves everything untouched: the Pending job stays
Pending. -/
theorem C4_counterexample :
    (mPending.get_job "job-1").map Job.status = some .pending ∧
    mPending.cancel_job "job-1" 1 = (mPending, false) ∧
    ((mPending.cancel_job "job-1" 1).1.get_job "job-1").map Job.status
      = some .pending :=
  ⟨by decide, by decide, by decide⟩

/-- **Claim C4 (amended).**  A cancellation request for a Pending job is
rejected: `cancel_job` returns `False` and changes nothing.  Only a
Running job can be cancelled, and then `cancel_job` goes through the
backing task — it cancels and removes the registered task — and marks the
job Cancelled. -/
theorem C4_cancel_pending_rejected {m : JobManager} {id : String} {j : Job}
    (h : m.get_job id = some j) (now : Nat) :
    (j.status = .pending → m.cancel_job id now = (m, false)) ∧
    (j.status = .running →
      (m.cancel_job id now).2 = true ∧
      ((m.cancel_job id now).1.get_job id).map Job.status = some .cancelled ∧
      (m.cancel_job id now).1.running_tasks.contains id = false) := by
  constructor
  · intro hp
    exact cancel_job_not_running h (by rw [hp]; decide) now
  · intro hrun
    refine ⟨cancel_job_running_snd h hrun now, ?_,
      cancel_job_running_tasks h hrun now⟩
    rw [cancel_job_running_get h hrun now]
    simp [applyUpdate_status]

theorem C4_cancel_pending_rejected_witness :
    (mRunning.cancel_job "job-1" 2).2 = true ∧
    ((mRunning.cancel_job "job-1" 2).1.get_job "job-1").map Job.status
      = some .cancelled ∧
    (mRunning.cancel_job "job-1" 2).1.running_tasks.contains "job-1" = false :=
  (C4_cancel_pending_rejected
    (show mRunning.get_job "job-1" = some jRunning by decide) 2).2 (by decide)

/-- **Claim C7.**  `cancel_job` returns `False` exactly when the job id is
unknown or the job is not Running, and `True` otherwise; consequently a
second cancel of the same job fails once the first succeeded (the job is
then Cancelled, not Running). -/
theorem C7_cancel_idempotent (m : JobManager) (id : String) (now now2 : Nat) :
    ((m.cancel_job id now).2 = true ↔
      ∃ j, m.get_job id = some j ∧ j.status = .running) ∧
    ((m.cancel_job id now).2 = true →
      ((m.cancel_job id now).1.cancel_job id now2).2 = false) := by
  cases h : m.get_job id with
  | none =>
      rw [cancel_job_unknown h now]
      refine ⟨⟨fun hfalse => Bool.noConfusion hfalse, ?_⟩,
        fun hfalse => Bool.noConfusion hfalse⟩
      rintro ⟨j, hj, -⟩
      exact Option.noConfusion hj
  | some j =>
      by_cases hrun : j.status = .running
      · refine ⟨⟨fun _ => ⟨j, rfl, hrun⟩,
          fun _ => cancel_job_running_snd h hrun now⟩, ?_⟩
        intro _
        have hget := cancel_job_running_get h hrun now
        rw [cancel_job_not_running hget
          (by rw [applyUpdate_status]; decide) now2]
      · rw [cancel_job_not_running h hrun now]
        refine ⟨⟨fun hfalse => Bool.noConfusion hfalse, ?_⟩,
          fun hfalse => Bool.noConfusion hfalse⟩
        rintro ⟨j', hj', hrun'⟩
        cases Option.some.inj hj'
        exact absurd hrun' hrun

theorem C7_cancel_idempotent_witness :
    ((mRunning.cancel_job "job-1" 2).1.cancel_job "job-1" 3).2 = false :=
  (C7_cancel_idempotent mRunning "job-1" 2 3).2 (by decide)

/-!
## Claim C5: missing training script
-/

theorem applyUpdate_error_message_some (j : Job) (st : JobStatus)
    (ec : Option Int) (s : String) (hs : ¬ s = "") (now : Nat) :
    (applyUpdate j st ec (some s) now).error_message = some s := by
  unfold applyUpdate
  cases ec <;> simp [hs] <;> split_ifs <;> rfl

theorem append_ne_empty_left {s : String} (t : String) (hs : s.length ≠ 0) :
    ¬ (s ++ t) = "" := by
  intro h
  have h2 := congrArg String.length h
  rw [String.length_append, show String.length "" = 0 from rfl] at h2
  omega

/-- **Claim C5.**  For every submitted job whose training script path
does not exist, `execute_training` reports a failure without starting any
process: the outcome is a normal `return 1` (no fault is thrown for the
known dataset types), no subprocess is spawned, and the job reaches
status Failed with the nonzero exit code 1 and an `error_message` naming
the missing script path. -/
theorem C5_missing_script_reports_failure {env : ExecEnv}
    {project_root dataset_type : String} {m : JobManager} {job_id : String}
    {j : Job} {p : String} (params : List (String × ParamValue)) (now : Nat)
    (hj : m.get_job job_id = some j)
    (hp : scriptPathOf project_root dataset_type = some p)
    (hex : env.script_exists p = false) :
    (execute_training env project_root m job_id dataset_type params now).outcome
      = Except.ok 1 ∧
    (execute_training env project_root m job_id dataset_type params now).spawned
      = [] ∧
    ∃ j', (execute_training env project_root m job_id dataset_type params
        now).manager.get_job job_id = some j' ∧
      j'.status = .failed ∧ j'.exit_code = some 1 ∧
      j'.error_message = some ("Training script not found: " ++ p) := by
  unfold execute_training
  rw [hp]
  dsimp only
  rw [hex, if_pos rfl]
  have h1 := get_job_append hj ("ERROR: " ++ ("Training script not found: " ++ p))
  have h2 := get_job_update h1 .failed (some 1)
      (some ("Training script not found: " ++ p)) now
  exact ⟨rfl, rfl, _, h2, applyUpdate_status _ _ _ _ _,
    applyUpdate_exit_code_some _ _ _ _ _,
    applyUpdate_error_message_some _ _ _ _
      (append_ne_empty_left _ (by decide)) _⟩

theorem C5_missing_script_witness :
    (execute_training envMissing "/proj" mPending "job-1" "rf100vl" [] 1).outcome
      = Except.ok 1 ∧
    (execute_training envMissing "/proj" mPending "job-1" "rf100vl" [] 1).spawned
      = [] :=
  ⟨(C5_missing_script_reports_failure [] 1
      (show mPending.get_job "job-1" = some (initJob ctxMissing) by decide)
      (show scriptPathOf "/proj" "rf100vl" = some rfScript by decide) rfl).1,
   (C5_missing_script_reports_failure [] 1
      (show mPending.get_job "job-1" = some (initJob ctxMissing) by decide)
      (show scriptPathOf "/proj" "rf100vl" = some rfScript by decide) rfl).2.1⟩

/-!
## Claim C9: parameters round-trip
-/

theorem update_job_status_unknown {m : JobManager} {id : String}
    (h : m.get_job id = Option.none) (st : JobStatus) (ec : Option Int)
    (em : Option String) (now : Nat) :
    m.update_job_status id st ec em now = (m, false) := by
  unfold JobManager.update_job_status
  rw [show alookup m.jobs id = Option.none from h]

theorem append_log_unknown {m : JobManager} {id : String}
    (h : m.get_job id = Option.none) (x : String) :
    m.append_log id x = m := by
  unfold JobManager.append_log
  rw [show alookup m.jobs id = Option.none from h]

theorem set_log_path_unknown {m : JobManager} {id : String}
    (h : m.get_job id = Option.none) (p : String) :
    m.set_log_path id p = m := by
  unfold JobManager.set_log_path
  rw [show alookup m.jobs id = Option.none from h]

theorem map_parameters_update (m : JobManager) (id : String) (st : JobStatus)
    (ec : Option Int) (em : Option String) (now : Nat) :
    ((m.update_job_status id st ec em now).1.get_job id).map Job.parameters
      = (m.get_job id).map Job.parameters := by
  cases h : m.get_job id with
  | none =>
      rw [update_job_status_unknown h st ec em now]
      dsimp only
      rw [h]
  | some j =>
      rw [get_job_update h]
      simp [applyUpdate_parameters]

theorem map_parameters_append (m : JobManager) (id x : String) :
    ((m.append_log id x).get_job id).map Job.parameters
      = (m.get_job id).map Job.parameters := by
  cases h : m.get_job id with
  | none =>
      rw [append_log_unknown h x, h]
  | some j =>
      rw [get_job_append h]
      simp

theorem map_parameters_set_log_path (m : JobManager) (id p : String) :
    ((m.set_log_path id p).get_job id).map Job.parameters
      = (m.get_job id).map Job.parameters := by
  cases h : m.get_job id with
  | none =>
      rw [set_log_path_unknown h p, h]
  | some j =>
      rw [get_job_set_log_path h]
      simp

theorem map_parameters_foldl (lines : List String) (m : JobManager)
    (id : String) :
    ((lines.foldl (fun m line => m.append_log id line) m).get_job id).map
        Job.parameters
      = (m.get_job id).map Job.parameters := by
  induction lines generalizing m with
  | nil => rfl
  | cons a t ih => rw [List.foldl_cons, ih, map_parameters_append]

theorem execute_training_parameters (env : ExecEnv) (project_root : String)
    (m : JobManager) (job_id dataset_type : String)
    (params : List (String × ParamValue)) (now : Nat) :
    ((execute_training env project_root m job_id dataset_type params
        now).manager.get_job job_id).map Job.parameters
      = (m.get_job job_id).map Job.parameters := by
  unfold execute_training
  cases hsp : scriptPathOf project_root dataset_type with
  | none => rfl
  | some p =>
      dsimp only
      split
      · rw [map_parameters_update, map_parameters_append]
      · split
        · rw [map_parameters_update, map_parameters_append,
            map_parameters_set_log_path, map_parameters_append,
            map_parameters_append, map_parameters_update]
        · split
          · rw [map_parameters_append, map_parameters_append,
              map_parameters_update, map_parameters_foldl,
              map_parameters_set_log_path, map_parameters_append,
              map_parameters_append, map_parameters_update]
          · rw [map_parameters_append, map_parameters_append,
              map_parameters_update, map_parameters_foldl,
              map_parameters_set_log_path, map_parameters_append,
              map_parameters_append, map_parameters_update]

/-- **Claim C9.**  Every parameter supplied in the submission request is
present, unmodified, in the `parameters` field of the returned snapshot:
the rf100vl route stores exactly the request's parameter mapping (the
dump of the request minus `execution_mode`, with the `mode` enum as the
string the client submitted), and the snapshot returned both for async
and sync execution carries it verbatim; at the store level, `get_job`
after `create_job` returns exactly the parameters passed in. -/
theorem C9_parameters_roundtrip (env : ExecEnv) (project_root : String)
    (m : JobManager) (req : RF100VLTrainingRequest) (new_id : String)
    (now : Nat) (dt em : String) (ps : List (String × ParamValue)) :
    ((submit_rf100vl_job env project_root m req new_id now).2).map
        Job.parameters = some req.routeParams ∧
    ((m.create_job new_id dt ps em now).get_job new_id).map Job.parameters
      = some ps := by
  constructor
  · unfold submit_rf100vl_job
    dsimp only
    split
    · rw [get_job_register, get_job_create]
      simp
    · rw [execute_training_parameters, get_job_create]
      simp
  · rw [get_job_create]
    simp

/-!
## Claim C10: the `tail` truthiness test of `get_logs`
-/

/-- **Claim C10.**  Because `get_logs` tests `tail` for truthiness
(`if tail:`) rather than for being non-`None`, `tail = 0` returns the
entire log buffer (same as `tail = None`), and a `tail` of at least 1
returns exactly the last `tail` lines. -/
theorem C10_get_logs_tail_truthiness {m : JobManager} {id : String}
    {j : Job} (h : m.get_job id = some j) :
    m.get_logs id (some 0) = j.logs ∧
    m.get_logs id Option.none = j.logs ∧
    ∀ t : Int, 1 ≤ t →
      m.get_logs id (some t) = j.logs.drop (j.logs.length - t.toNat) := by
  have h' : alookup m.jobs id = some j := h
  refine ⟨?_, ?_, ?_⟩
  · unfold JobManager.get_logs
    rw [h']
    simp
  · unfold JobManager.get_logs
    rw [h']
  · intro t ht
    unfold JobManager.get_logs
    rw [h']
    dsimp only
    rw [if_neg (by omega : ¬ t = 0)]
    unfold pySliceFrom
    rw [if_neg (by omega : ¬ (0:Int) ≤ -t)]
    congr 1
    omega

/-- A store whose job holds three log lines. -/
def mLogs : JobManager :=
  ((mPending.append_log "job-1" "l1").append_log "job-1" "l2").append_log
    "job-1" "l3"

/-- The job record of `mLogs`. -/
def jLogs : Job := (mLogs.get_job "job-1").getD (initJob ctxMissing)

theorem C10_get_logs_tail_truthiness_witness :
    mLogs.get_logs "job-1" (some 0) = jLogs.logs ∧
    mLogs.get_logs "job-1" Option.none = jLogs.logs ∧
    mLogs.get_logs "job-1" (some 2)
      = jLogs.logs.drop (jLogs.logs.length - (2:Int).toNat) := by
  obtain ⟨h1, h2, h3⟩ := C10_get_logs_tail_truthiness
    (show mLogs.get_job "job-1" = some jLogs by decide)
  exact ⟨h1, h2, h3 2 (by decide)⟩

/-!
## Claim C8: the log streaming interface

How each step changes the live log list, assuming no eviction.
-/

theorem logsOf_eq (ctx : RunCtx) (s : Sys) {j : Job}
    (h : jobOf ctx s = some j) : logsOf ctx s = j.logs := by
  unfold logsOf JobManager.get_logs
  rw [show alookup s.m.jobs ctx.job_id = some j from h]

/-- `append_log` below the bound is a plain append. -/
theorem get_job_append_noevict {m : JobManager} {id : String} {j : Job}
    (h : m.get_job id = some j) (hl : j.logs.length + 1 ≤ 10000) (x : String) :
    (m.append_log id x).get_job id = some { j with logs := j.logs ++ [x] } := by
  rw [get_job_append h x, appendBounded_noevict (by omega) x]

theorem logsOf_launchMissingNext {ctx : RunCtx} {s : Sys} {j : Job}
    (h : jobOf ctx s = some j) (hl : j.logs.length + 1 ≤ 10000) (p : String)
    (now : Nat) :
    logsOf ctx (launchMissingNext ctx p now s)
      = logsOf ctx s ++ ["ERROR: " ++ ("Training script not found: " ++ p)] := by
  have h1 := get_job_append_noevict h hl
      ("ERROR: " ++ ("Training script not found: " ++ p))
  have h2 := get_job_update h1 .failed (some 1)
      (some ("Training script not found: " ++ p)) now
  rw [logsOf_eq ctx (launchMissingNext ctx p now s) h2, logsOf_eq ctx s h,
    applyUpdate_logs]

theorem logsOf_launchPrepNext {ctx : RunCtx} {s : Sys} {j : Job}
    (h : jobOf ctx s = some j) (hl : j.logs.length + 2 ≤ 10000) (p : String)
    (now : Nat) :
    logsOf ctx (launchPrepNext ctx p now s)
      = logsOf ctx s ++
        ["Executing: " ++ String.intercalate " "
            (["bash", p] ++ argsOf ctx.dataset_type ctx.params), eqLine80] := by
  have h1 := get_job_update h .running Option.none Option.none now
  have h2 := get_job_append_noevict h1 (by rw [applyUpdate_logs]; omega)
      ("Executing: " ++ String.intercalate " "
        (["bash", p] ++ argsOf ctx.dataset_type ctx.params))
  have h3 := get_job_append_noevict h2 (by simp [applyUpdate_logs]; omega)
      eqLine80
  have h4 := get_job_set_log_path h3
      (logFilePath ctx.project_root ctx.dataset_type ctx.job_id now)
  rw [logsOf_eq ctx (launchPrepNext ctx p now s) h4, logsOf_eq ctx s h]
  simp [applyUpdate_logs]

theorem logsOf_spawnOkNext (ctx : RunCtx) (s : Sys) :
    logsOf ctx (spawnOkNext ctx s) = logsOf ctx s := rfl

theorem logsOf_emitLineNext {ctx : RunCtx} {s : Sys} {j : Job}
    (h : jobOf ctx s = some j) (hl : j.logs.length + 1 ≤ 10000) (x : String)
    (r : List String) :
    logsOf ctx (emitLineNext ctx x r s) = logsOf ctx s ++ [x] := by
  have h1 := get_job_append_noevict h hl x
  rw [logsOf_eq ctx (emitLineNext ctx x r s) h1, logsOf_eq ctx s h]

theorem get_logs_eq {m : JobManager} {id : String} {j : Job}
    (h : m.get_job id = some j) :
    m.get_logs id Option.none = j.logs := by
  unfold JobManager.get_logs
  rw [show alookup m.jobs id = some j from h]

theorem logsOf_procExitNext {ctx : RunCtx} {s : Sys} {j : Job}
    (h : jobOf ctx s = some j) (hl : j.logs.length + 2 ≤ 10000) (now : Nat) :
    ∃ ns : List String, ns.length = 2 ∧
      logsOf ctx (procExitNext ctx now s) = logsOf ctx s ++ ns := by
  by_cases h0 : ctx.env.exit_status = 0
  · have h1 := get_job_update h .completed (some 0) Option.none now
    have h2 := get_job_append_noevict h1 (by rw [applyUpdate_logs]; omega)
        eqLine80
    have h3 := get_job_append_noevict h2 (by simp [applyUpdate_logs]; omega)
        "Training completed successfully"
    refine ⟨[eqLine80, "Training completed successfully"], rfl, ?_⟩
    have hstep : logsOf ctx (procExitNext ctx now s)
        = (((s.m.update_job_status ctx.job_id .completed (some 0) Option.none
            now).1.append_log ctx.job_id eqLine80).append_log ctx.job_id
            "Training completed successfully").get_logs ctx.job_id
            Option.none := by
      unfold procExitNext
      rw [if_pos h0]
      rfl
    rw [hstep, get_logs_eq h3, logsOf_eq ctx s h]
    simp [applyUpdate_logs]
  · have h1 := get_job_update h .failed (some ctx.env.exit_status)
        (some ("Training failed with exit code " ++ toString ctx.env.exit_status))
        now
    have h2 := get_job_append_noevict h1 (by rw [applyUpdate_logs]; omega)
        eqLine80
    have h3 := get_job_append_noevict h2 (by simp [applyUpdate_logs]; omega)
        ("ERROR: " ++ ("Training failed with exit code "
          ++ toString ctx.env.exit_status))
    refine ⟨[eqLine80, "ERROR: " ++ ("Training failed with exit code "
      ++ toString ctx.env.exit_status)], rfl, ?_⟩
    have hstep : logsOf ctx (procExitNext ctx now s)
        = (((s.m.update_job_status ctx.job_id .failed
            (some ctx.env.exit_status)
            (some ("Training failed with exit code "
              ++ toString ctx.env.exit_status))
            now).1.append_log ctx.job_id eqLine80).append_log ctx.job_id
            ("ERROR: " ++ ("Training failed with exit code "
              ++ toString ctx.env.exit_status))).get_logs ctx.job_id
            Option.none := by
      unfold procExitNext
      rw [if_neg h0]
      rfl
    rw [hstep, get_logs_eq h3, logsOf_eq ctx s h]
    simp [applyUpdate_logs]

theorem logsOf_execExceptNext {ctx : RunCtx} {s : Sys} {j : Job}
    (h : jobOf ctx s = some j) (hl : j.logs.length + 1 ≤ 10000) (emsg : String)
    (now : Nat) :
    logsOf ctx (execExceptNext ctx emsg now s)
      = logsOf ctx s ++ ["ERROR: " ++ ("Execution error: " ++ emsg)] := by
  have h1 := get_job_append_noevict h hl
      ("ERROR: " ++ ("Execution error: " ++ emsg))
  have h2 := get_job_update h1 .failed (some 1)
      (some ("Execution error: " ++ emsg)) now
  rw [logsOf_eq ctx (execExceptNext ctx emsg now s) h2, logsOf_eq ctx s h,
    applyUpdate_logs]

theorem logsOf_cancelHandlerNext {ctx : RunCtx} {s : Sys} {j : Job}
    (h : jobOf ctx s = some j) (hl : j.logs.length + 2 ≤ 10000) (now : Nat) :
    logsOf ctx (cancelHandlerNext ctx now s)
      = logsOf ctx s ++ [eqLine80, "Training cancelled by user"] := by
  have h1 := get_job_append_noevict h (by omega) eqLine80
  have h2 := get_job_append_noevict h1 (by simp; omega)
      "Training cancelled by user"
  have h3 := get_job_update h2 .cancelled (some (-1)) Option.none now
  rw [logsOf_eq ctx (cancelHandlerNext ctx now s) h3, logsOf_eq ctx s h,
    applyUpdate_logs]
  simp

theorem logsOf_congr (ctx : RunCtx) {s s' : Sys} (h : s'.m = s.m) :
    logsOf ctx s' = logsOf ctx s := by
  unfold logsOf
  rw [h]

theorem logsOf_apiCancelNext (ctx : RunCtx) (now : Nat) (s : Sys) :
    logsOf ctx (apiCancelNext ctx now s) = logsOf ctx s := by
  cases h : jobOf ctx s with
  | none =>
      have heq : s.m.cancel_job ctx.job_id now = (s.m, false) :=
        cancel_job_unknown h now
      exact logsOf_congr ctx (show (apiCancelNext ctx now s).m = s.m from
        congrArg Prod.fst heq)
  | some j =>
      by_cases hrun : j.status = .running
      · have hget := cancel_job_running_get h hrun now
        rw [logsOf_eq ctx (apiCancelNext ctx now s)
            (show jobOf ctx (apiCancelNext ctx now s)
              = some (applyUpdate j .cancelled Option.none Option.none now)
              from hget), logsOf_eq ctx s h, applyUpdate_logs]
      · have heq := cancel_job_not_running h hrun now
        exact logsOf_congr ctx (show (apiCancelNext ctx now s).m = s.m from
          congrArg Prod.fst heq)

theorem procExitNext_pc (ctx : RunCtx) (now : Nat) (s : Sys) :
    (procExitNext ctx now s).pc = .finished := by
  unfold procExitNext
  dsimp only
  split <;> rfl

theorem procExitNext_sub (ctx : RunCtx) (now : Nat) (s : Sys) :
    (procExitNext ctx now s).sub = s.sub := by
  unfold procExitNext
  dsimp only
  split <;> rfl

theorem procExitNext_sent (ctx : RunCtx) (now : Nat) (s : Sys) :
    (procExitNext ctx now s).sent = s.sent := by
  unfold procExitNext
  dsimp only
  split <;> rfl

theorem procExitNext_lastCount (ctx : RunCtx) (now : Nat) (s : Sys) :
    (procExitNext ctx now s).lastCount = s.lastCount := by
  unfold procExitNext
  dsimp only
  split <;> rfl

/-- What the subscriber has sent, as determined by its phase: always the
`line`-image of a prefix of the live log list, with no status event yet.
During `sendNew` the unsent remainder `p` completes the prefix to the
whole list (valid because under the strict schedule the list does not
grow while a snapshot is pending). -/
def SubInv (sub : SubPhase) (sent : List StreamMsg) (lastCount : Nat)
    (logs : List String) : Prop :=
  match sub with
  | .replay i => sent = (logs.take i).map StreamMsg.line ∧ i ≤ logs.length
  | .loopStart => sent = (logs.take lastCount).map StreamMsg.line ∧
      lastCount ≤ logs.length
  | .sendNew p => ∃ pref, sent = pref.map StreamMsg.line ∧ pref ++ p = logs
  | .closed => True

/-- Invariant of the strict schedules: the transcript discipline above,
plus bounds showing the executor appends at most
`output_lines.length + 4` lines, so (given that this is at most the
10000-line bound) no eviction ever occurs. -/
def InvS (ctx : RunCtx) (s : Sys) : Prop :=
  SubInv s.sub s.sent s.lastCount (logsOf ctx s) ∧
  (s.pc = .notStarted → logsOf ctx s = []) ∧
  (s.pc = .spawning → (logsOf ctx s).length = 2) ∧
  (∀ r, s.pc = .launched r →
      (logsOf ctx s).length + r.length ≤ ctx.env.output_lines.length + 2) ∧
  (logsOf ctx s).length ≤ ctx.env.output_lines.length + 4

/-- Appending lines to the log is harmless for the transcript discipline
whenever the subscriber holds no pending snapshot. -/
theorem SubInv_append {sub : SubPhase} {sent : List StreamMsg}
    {lastCount : Nat} {logs : List String}
    (hsafe : sub.safeForAppend = true)
    (h : SubInv sub sent lastCount logs) (ns : List String) :
    SubInv sub sent lastCount (logs ++ ns) := by
  cases sub with
  | replay i =>
      obtain ⟨h1, h2⟩ := h
      refine ⟨?_, ?_⟩
      · rw [List.take_append_of_le_length h2]
        exact h1
      · rw [List.length_append]
        omega
  | loopStart =>
      obtain ⟨h1, h2⟩ := h
      refine ⟨?_, ?_⟩
      · rw [List.take_append_of_le_length h2]
        exact h1
      · rw [List.length_append]
        omega
  | sendNew p => exact absurd hsafe (by simp [SubPhase.safeForAppend])
  | closed => trivial

theorem invS_init (ctx : RunCtx) : InvS ctx (initSys ctx) := by
  have hlogs : logsOf ctx (initSys ctx) = [] := by
    rw [logsOf_eq ctx (initSys ctx) (jobOf_init ctx)]
    rfl
  refine ⟨?_, fun _ => hlogs, ?_, ?_, ?_⟩
  · show SubInv (.replay 0) [] 0 (logsOf ctx (initSys ctx))
    rw [hlogs]
    exact ⟨rfl, Nat.le_refl 0⟩
  · intro h
    exact ExecPC.noConfusion h
  · intro r h
    exact ExecPC.noConfusion h
  · rw [hlogs]
    simp

theorem invS_step {ctx : RunCtx} {s s' : Sys}
    (HB : ctx.env.output_lines.length + 4 ≤ 10000)
    (hInv : Inv ctx s) (hS : InvS ctx s) (hs : Step ctx true s s') :
    InvS ctx s' := by
  obtain ⟨j, hj, hnsI, hslI, hfinI, hunsetI, htcI, htcfI⟩ := hInv
  obtain ⟨hsub, hG1, hG2, hG3, hG4⟩ := hS
  have hjl : logsOf ctx s = j.logs := logsOf_eq ctx s hj
  cases hs with
  | launchMissing p now hpc hsp hex hstrict =>
      have hempty : logsOf ctx s = [] := hG1 hpc
      have hlogs' := logsOf_launchMissingNext hj
        (by rw [← hjl, hempty]; simp) p now
      refine ⟨?_, ?_, ?_, ?_, ?_⟩
      · show SubInv s.sub s.sent s.lastCount (logsOf ctx (launchMissingNext ctx p now s))
        rw [hlogs']
        exact SubInv_append (hstrict rfl) hsub _
      · intro h
        exact ExecPC.noConfusion h
      · intro h
        exact ExecPC.noConfusion h
      · intro r h
        exact ExecPC.noConfusion h
      · rw [hlogs', List.length_append, hempty]
        simp
  | launchPrep p now hpc hsp hex hstrict =>
      have hempty : logsOf ctx s = [] := hG1 hpc
      have hlogs' := logsOf_launchPrepNext hj
        (by rw [← hjl, hempty]; simp) p now
      refine ⟨?_, ?_, ?_, ?_, ?_⟩
      · show SubInv s.sub s.sent s.lastCount (logsOf ctx (launchPrepNext ctx p now s))
        rw [hlogs']
        exact SubInv_append (hstrict rfl) hsub _
      · intro h
        exact ExecPC.noConfusion h
      · intro _
        rw [hlogs', List.length_append, hempty]
        rfl
      · intro r h
        exact ExecPC.noConfusion h
      · rw [hlogs', List.length_append, hempty]
        simp
  | spawnOk hpc htcF hok =>
      refine ⟨hsub, ?_, ?_, ?_, hG4⟩
      · intro h
        exact ExecPC.noConfusion h
      · intro h
        exact ExecPC.noConfusion h
      · intro r hr
        cases hr
        rw [logsOf_spawnOkNext, hG2 hpc]
        omega
  | emitLine x r hpc htcF hstrict =>
      have hbound := hG3 (x :: r) hpc
      simp only [List.length_cons] at hbound
      have hlogs' := logsOf_emitLineNext hj (by rw [← hjl]; omega) x r
      refine ⟨?_, ?_, ?_, ?_, ?_⟩
      · show SubInv s.sub s.sent s.lastCount (logsOf ctx (emitLineNext ctx x r s))
        rw [hlogs']
        exact SubInv_append (hstrict rfl) hsub _
      · intro h
        exact ExecPC.noConfusion h
      · intro h
        exact ExecPC.noConfusion h
      · intro r' hr
        cases hr
        rw [hlogs', List.length_append]
        simp
        omega
      · rw [hlogs', List.length_append]
        simp
        omega
  | procExit now hpc htcF hstrict =>
      have hbound := hG3 [] hpc
      simp only [List.length_nil, Nat.add_zero] at hbound
      obtain ⟨ns, hns2, hlogs'⟩ := logsOf_procExitNext hj
        (by rw [← hjl]; omega) now
      refine ⟨?_, ?_, ?_, ?_, ?_⟩
      · rw [procExitNext_sub, procExitNext_sent, procExitNext_lastCount,
          hlogs']
        exact SubInv_append (hstrict rfl) hsub _
      · intro h
        rw [procExitNext_pc] at h
        exact ExecPC.noConfusion h
      · intro h
        rw [procExitNext_pc] at h
        exact ExecPC.noConfusion h
      · intro r h
        rw [procExitNext_pc] at h
        exact ExecPC.noConfusion h
      · rw [hlogs', List.length_append, hns2]
        omega
  | execExcept emsg now hpc htcF hstrict =>
      have hbound : (logsOf ctx s).length ≤ ctx.env.output_lines.length + 2 := by
        rcases hpc with h | ⟨r, h⟩
        · rw [hG2 h]
          omega
        · have := hG3 r h
          omega
      have hlogs' := logsOf_execExceptNext hj (by rw [← hjl]; omega) emsg now
      refine ⟨?_, ?_, ?_, ?_, ?_⟩
      · show SubInv s.sub s.sent s.lastCount (logsOf ctx (execExceptNext ctx emsg now s))
        rw [hlogs']
        exact SubInv_append (hstrict rfl) hsub _
      · intro h
        exact ExecPC.noConfusion h
      · intro h
        exact ExecPC.noConfusion h
      · intro r h
        exact ExecPC.noConfusion h
      · rw [hlogs', List.length_append]
        simp
        omega
  | cancelHandler now hpc htcT hstrict =>
      have hbound : (logsOf ctx s).length ≤ ctx.env.output_lines.length + 2 := by
        rcases hpc with h | ⟨r, h⟩
        · rw [hG2 h]
          omega
        · have := hG3 r h
          omega
      have hlogs' := logsOf_cancelHandlerNext hj (by rw [← hjl]; omega) now
      refine ⟨?_, ?_, ?_, ?_, ?_⟩
      · show SubInv s.sub s.sent s.lastCount (logsOf ctx (cancelHandlerNext ctx now s))
        rw [hlogs']
        exact SubInv_append (hstrict rfl) hsub _
      · intro h
        exact ExecPC.noConfusion h
      · intro h
        exact ExecPC.noConfusion h
      · intro r h
        exact ExecPC.noConfusion h
      · rw [hlogs', List.length_append]
        simp
        omega
  | apiCancel now =>
      have hlogs' := logsOf_apiCancelNext ctx now s
      refine ⟨?_, ?_, ?_, ?_, ?_⟩
      · show SubInv s.sub s.sent s.lastCount (logsOf ctx (apiCancelNext ctx now s))
        rw [hlogs']
        exact hsub
      · intro h
        rw [hlogs']
        exact hG1 h
      · intro h
        rw [hlogs']
        exact hG2 h
      · intro r h
        rw [hlogs']
        exact hG3 r h
      · rw [hlogs']
        exact hG4
  | subReplayNext i hsubr hi =>
      rw [hsubr] at hsub
      obtain ⟨h1, h2⟩ := hsub
      refine ⟨?_, hG1, hG2, hG3, hG4⟩
      · show SubInv (.replay (i+1))
          (s.sent ++ [.line ((logsOf ctx s).getD i "")]) s.lastCount
          (logsOf ctx s)
        have hx : (logsOf ctx s).getD i "" = (logsOf ctx s).get ⟨i, hi⟩ := by
          simp [List.getD_eq_getElem?_getD, List.getElem?_eq_getElem hi]
        have ht : (logsOf ctx s).take (i+1)
            = (logsOf ctx s).take i ++ [(logsOf ctx s).get ⟨i, hi⟩] := by
          rw [List.take_succ, List.getElem?_eq_getElem hi]
          rfl
        refine ⟨?_, by omega⟩
        rw [ht, List.map_append, ← h1, hx]
        rfl
  | subReplayDone i hsubr hi =>
      rw [hsubr] at hsub
      obtain ⟨h1, h2⟩ := hsub
      have hieq : i = (logsOf ctx s).length := by omega
      refine ⟨?_, hG1, hG2, hG3, hG4⟩
      show SubInv .loopStart s.sent (logsOf ctx s).length (logsOf ctx s)
      refine ⟨?_, Nat.le_refl _⟩
      rw [h1, hieq]
  | subIterSnap hsubr hlen =>
      rw [hsubr] at hsub
      obtain ⟨h1, h2⟩ := hsub
      refine ⟨?_, hG1, hG2, hG3, hG4⟩
      show SubInv (.sendNew ((logsOf ctx s).drop s.lastCount)) s.sent
        s.lastCount (logsOf ctx s)
      exact ⟨(logsOf ctx s).take s.lastCount, h1, List.take_append_drop _ _⟩
  | subIterSkip hsubr hlen hterm =>
      exact ⟨hsub, hG1, hG2, hG3, hG4⟩
  | subIterClose hsubr hlen hterm =>
      refine ⟨?_, hG1, hG2, hG3, hG4⟩
      show SubInv .closed _ _ _
      trivial
  | subSend x p hsubr =>
      rw [hsubr] at hsub
      obtain ⟨pref, h1, h2⟩ := hsub
      refine ⟨?_, hG1, hG2, hG3, hG4⟩
      show SubInv (.sendNew p) (s.sent ++ [.line x]) s.lastCount (logsOf ctx s)
      refine ⟨pref ++ [x], ?_, ?_⟩
      · rw [List.map_append, h1]
        rfl
      · rw [List.append_assoc, List.singleton_append]
        exact h2
  | subFlushLoop hsubr hterm =>
      rw [hsubr] at hsub
      obtain ⟨pref, h1, h2⟩ := hsub
      rw [List.append_nil] at h2
      refine ⟨?_, hG1, hG2, hG3, hG4⟩
      show SubInv .loopStart s.sent (logsOf ctx s).length (logsOf ctx s)
      refine ⟨?_, Nat.le_refl _⟩
      rw [List.take_length, h1, h2]
  | subFlushClose hsubr hterm =>
      refine ⟨?_, hG1, hG2, hG3, hG4⟩
      show SubInv .closed _ _ _
      trivial

theorem invS_reach {ctx : RunCtx} {s : Sys}
    (HB : ctx.env.output_lines.length + 4 ≤ 10000)
    (h : Reach ctx true s) : InvS ctx s := by
  unfold Reach at h
  induction h with
  | refl => exact invS_init ctx
  | tail hr hstep ih => exact invS_step HB (inv_reach hr) ih hstep

/-- **Claim C8 (amended).**  On the log streaming interface, under the
schedules in which the executor appends log lines only while the
subscriber holds no pending snapshot (`Step ctx true`, the
`safeForAppend` discipline) and fewer lines than the eviction bound are
produced: at the moment the subscriber closes the stream, what it has
sent is exactly every line buffered for the job at that moment, in
order, followed by one single final terminal status event carrying the
job's status and exit code. -/
theorem C8_stream_terminal_event {ctx : RunCtx} {s s' : Sys}
    (HB : ctx.env.output_lines.length + 4 ≤ 10000)
    (hr : Reach ctx true s) (hs : Step ctx true s s')
    (hop : ¬ s.sub = .closed) (hcl : s'.sub = .closed) :
    s'.sent = (logsOf ctx s').map StreamMsg.line
        ++ [StreamMsg.statusEv (statusOf ctx s') (exitOf ctx s')] ∧
    (statusOf ctx s').isTerminal = true := by
  obtain ⟨hsub, hG1, hG2, hG3, hG4⟩ := invS_reach HB hr
  cases hs with
  | launchMissing p now hpc hsp hex hstrict => exact absurd hcl hop
  | launchPrep p now hpc hsp hex hstrict => exact absurd hcl hop
  | spawnOk hpc htcF hok => exact absurd hcl hop
  | emitLine x r hpc htcF hstrict => exact absurd hcl hop
  | procExit now hpc htcF hstrict =>
      rw [procExitNext_sub] at hcl
      exact absurd hcl hop
  | execExcept emsg now hpc htcF hstrict => exact absurd hcl hop
  | cancelHandler now hpc htcT hstrict => exact absurd hcl hop
  | apiCancel now => exact absurd hcl hop
  | subReplayNext i hsubr hi => exact SubPhase.noConfusion hcl
  | subReplayDone i hsubr hi => exact SubPhase.noConfusion hcl
  | subIterSnap hsubr hlen => exact SubPhase.noConfusion hcl
  | subIterSkip hsubr hlen hterm => exact absurd hcl hop
  | subIterClose hsubr hlen hterm =>
      rw [hsubr] at hsub
      obtain ⟨h1, h2⟩ := hsub
      have hlc : s.lastCount = (logsOf ctx s).length := by omega
      constructor
      · show s.sent ++ [StreamMsg.statusEv (statusOf ctx s) (exitOf ctx s)]
          = (logsOf ctx s).map StreamMsg.line
            ++ [StreamMsg.statusEv (statusOf ctx s) (exitOf ctx s)]
        rw [h1, hlc, List.take_length]
      · exact hterm
  | subSend x p hsubr => exact SubPhase.noConfusion hcl
  | subFlushLoop hsubr hterm => exact SubPhase.noConfusion hcl
  | subFlushClose hsubr hterm =>
      rw [hsubr] at hsub
      obtain ⟨pref, h1, h2⟩ := hsub
      rw [List.append_nil] at h2
      constructor
      · show s.sent ++ [StreamMsg.statusEv (statusOf ctx s) (exitOf ctx s)]
          = (logsOf ctx s).map StreamMsg.line
            ++ [StreamMsg.statusEv (statusOf ctx s) (exitOf ctx s)]
        rw [h1, h2]
      · exact hterm

/-- The `Executing: …` banner line of the async scenario. -/
def execLine : String :=
  "Executing: bash /proj/scripts/train_rf100vl.sh"

/-- Interleaving refuting C8: the subscriber snapshots the two banner
lines and sends them; while it is suspended on those sends the process
runs to completion (one output line, exit 0); the subscriber then
updates `last_log_count` from the live list and, seeing the terminal
status, emits the final event and closes — without ever sending
`out-1` or the trailer lines. -/
def t1 : Sys := subReplayDoneNext ctxAsync sA0

def t2 : Sys := launchPrepNext ctxAsync rfScript 1 t1

def t3 : Sys := subIterSnapNext ctxAsync t2

def t4 : Sys := subSendNext execLine [eqLine80] t3

def t5 : Sys := subSendNext eqLine80 [] t4

def t6 : Sys := spawnOkNext ctxAsync t5

def t7 : Sys := emitLineNext ctxAsync "out-1" [] t6

def t8 : Sys := procExitNext ctxAsync 2 t7

def t9 : Sys := subFlushCloseNext ctxAsync t8

theorem reach_t9 : Reach ctxAsync false t9 := by
  have r1 : Reach ctxAsync false t1 :=
    Relation.ReflTransGen.tail Relation.ReflTransGen.refl
      (Step.subReplayDone sA0 0 rfl (by decide))
  have r2 : Reach ctxAsync false t2 :=
    Relation.ReflTransGen.tail r1
      (Step.launchPrep t1 rfScript 1 rfl (by decide) rfl (fun h => nomatch h))
  have r3 : Reach ctxAsync false t3 :=
    Relation.ReflTransGen.tail r2 (Step.subIterSnap t2 rfl (by decide))
  have r4 : Reach ctxAsync false t4 :=
    Relation.ReflTransGen.tail r3
      (Step.subSend t3 execLine [eqLine80] (by decide))
  have r5 : Reach ctxAsync false t5 :=
    Relation.ReflTransGen.tail r4 (Step.subSend t4 eqLine80 [] (by decide))
  have r6 : Reach ctxAsync false t6 :=
    Relation.ReflTransGen.tail r5 (Step.spawnOk t5 (by decide) (by decide) rfl)
  have r7 : Reach ctxAsync false t7 :=
    Relation.ReflTransGen.tail r6
      (Step.emitLine t6 "out-1" [] (by decide) (by decide) (fun h => nomatch h))
  have r8 : Reach ctxAsync false t8 :=
    Relation.ReflTransGen.tail r7
      (Step.procExit t7 2 (by decide) (by decide) (fun h => nomatch h))
  exact Relation.ReflTransGen.tail r8
    (Step.subFlushClose t8 (by decide) (by decide))

/-- **Claim C8, counterexample.**  The claim asserts every buffered log
line is delivered to the subscriber before the single final terminal
status event.  In the interleaving `t1 … t9` the subscriber closes the
stream right after the terminal event while the buffered line `out-1`
(and the two trailer lines) were never sent: `stream_logs` re-reads
`len(current_logs)` from the live list after its sends, so the lines
appended during the sends are skipped, and the terminal status check
then ends the stream. -/
theorem C8_counterexample :
    Reach ctxAsync false t9 ∧
    t9.sub = .closed ∧
    t9.sent = [.line execLine, .line eqLine80,
               .statusEv .completed (some 0)] ∧
    "out-1" ∈ logsOf ctxAsync t9 ∧
    ¬ StreamMsg.line "out-1" ∈ t9.sent :=
  ⟨reach_t9, by decide, by decide, by decide, by decide⟩

/-- The missing-script error line of the strict witness run. -/
def errLine : String :=
  "ERROR: Training script not found: /proj/scripts/train_rf100vl.sh"

def w1 : Sys := subReplayDoneNext ctxMissing (initSys ctxMissing)

def w2 : Sys := launchMissingNext ctxMissing rfScript 1 w1

def w3 : Sys := subIterSnapNext ctxMissing w2

def w4 : Sys := subSendNext errLine [] w3

def w5 : Sys := subFlushCloseNext ctxMissing w4

theorem reach_w4 : Reach ctxMissing true w4 := by
  have r1 : Reach ctxMissing true w1 :=
    Relation.ReflTransGen.tail Relation.ReflTransGen.refl
      (Step.subReplayDone (initSys ctxMissing) 0 rfl (by decide))
  have r2 : Reach ctxMissing true w2 :=
    Relation.ReflTransGen.tail r1
      (Step.launchMissing w1 rfScript 1 rfl (by decide) rfl (fun _ => by decide))
  have r3 : Reach ctxMissing true w3 :=
    Relation.ReflTransGen.tail r2 (Step.subIterSnap w2 rfl (by decide))
  exact Relation.ReflTransGen.tail r3 (Step.subSend w3 errLine [] (by decide))

theorem C8_stream_terminal_event_witness :
    w5.sent = (logsOf ctxMissing w5).map StreamMsg.line
        ++ [StreamMsg.statusEv (statusOf ctxMissing w5) (exitOf ctxMissing w5)] ∧
    (statusOf ctxMissing w5).isTerminal = true :=
  C8_stream_terminal_event (by decide) reach_w4
    (Step.subFlushClose w4 (by decide) (by decide)) (by decide) rfl

end Sam3
